import Mathlib

/-!
# Symmetric linear multistep integrator

A shallow embedding of `integrators/symmetric_linear_multistep_integrator_body.hpp`
in exact rational arithmetic, followed by the properties established about it.

Conventions of the embedding.

* `double`, `Time` and `Instant` are `ℚ`; the template parameter `Position` is a type `P`
  carrying the operations the body uses (a `ℚ`-module); `Position()` is `0`.
* `std::vector` and the window `previous_steps` are `List`s, oldest element first.
* A `CHECK` that fails, and an operation whose behaviour C++ leaves undefined (reading
  through an iterator outside its container, indexing a vector outside its bounds, using a
  reference to a destroyed element), end the run with a `Failure`.
* Calls of `equation.compute_acceleration` and of `append_state` made by this integrator
  are recorded in the `Run`, oldest first.
* The `while` loop of `Solve` is driven by a `fuel` bound on the number of iterations.
-/

namespace principia
namespace integrators

/-! ## Data model -/

/-- Modelled from the spec: the compensated scalar `DoublePrecision<T>` (its declaration is
outside the given sources): a value together with the running error of its increments. -/
structure DoublePrecision (T : Type) where
  value : T
  error : T
deriving DecidableEq, Repr

/-- Modelled from the spec: `DoublePrecision<T>::Increment`, the compensated (Kahan) summation
step.  In exact arithmetic the new value is the exact total and the new error is the
rounding remainder of this increment. -/
def DoublePrecision.Increment {T : Type} [AddCommGroup T] (x : DoublePrecision T)
    (increment : T) : DoublePrecision T :=
  let temp := x.value
  let y := increment + x.error
  let value := temp + y
  { value := value, error := (temp - value) + y }

/-- A default-constructed `DoublePrecision<T>`. -/
def DoublePrecision.default {T : Type} [Zero T] : DoublePrecision T :=
  { value := 0, error := 0 }

/-- The window entry `Step`, read off the member accesses of the body. -/
structure Step (P : Type) where
  displacements : List P
  accelerations : List P
  time : DoublePrecision ℚ

/-- A default-constructed `Step`, as produced by `previous_steps.emplace_back()`. -/
def Step.default {P : Type} : Step P :=
  { displacements := [], accelerations := [], time := DoublePrecision.default }

/-- The `ODE::SystemState`, read off the member accesses of the body. -/
structure SystemState (P : Type) where
  positions : List (DoublePrecision P)
  velocities : List (DoublePrecision P)
  time : DoublePrecision ℚ

/-- A default-constructed `ODE::SystemState`. -/
def SystemState.default {P : Type} : SystemState P :=
  { positions := [], velocities := [], time := DoublePrecision.default }

/-- The ODE: `compute_acceleration(t, positions, &accelerations)`, as the function from its
inputs to the vector it writes. -/
structure ODE (P : Type) where
  compute_acceleration : ℚ → List P → List P

/-- The `IntegrationProblem<ODE>`. -/
structure IntegrationProblem (P : Type) where
  equation : ODE P
  initial_state : SystemState P

/-- The members of `Instance`; the callback `append_state` is represented by the record
of its calls in `Run`. -/
structure Instance (P : Type) where
  equation : ODE P
  step : ℚ
  previous_steps : List (Step P)

/-- An instance together with the observable effects of the calls made on it so far. -/
structure Run (P : Type) where
  inst : Instance P
  /-- Arguments of the calls of `equation.compute_acceleration`, oldest first. -/
  ode_calls : List (ℚ × List P)
  /-- Arguments of the calls of `append_state`, oldest first. -/
  published : List (SystemState P)
  /-- Number of executions of `previous_steps.emplace_back()` in the main loop. -/
  appended : Nat

/-- The ways in which a run ends other than by returning. -/
inductive Failure where
  /-- The check `CHECK_LT(Time(), step)` in `Solve`. -/
  | check_step_positive
  /-- The check `CHECK_EQ(ɑk, 1.0)` in `Solve`. -/
  | check_alpha_k
  /-- The check `CHECK(!previous_steps.empty())` in `StartupSolve`. -/
  | check_not_empty
  /-- The check `CHECK_LT(previous_steps.size(), order_ - 1)` in `StartupSolve`. -/
  | check_size_lt
  /-- The check `CHECK_EQ(previous_steps.size(), order_ - 1)` in `StartupSolve`. -/
  | check_size_eq
  /-- The check `CHECK_EQ(current_state.position.size(), current_state.velocities.size())`
  in the constructor of `Instance`. -/
  | check_state_sizes
  /-- Undefined: `back()` of an empty container. -/
  | back_of_empty
  /-- Undefined: reading through an iterator that designates no element. -/
  | iterator_out_of_range
  /-- Undefined: `operator[]` outside the bounds of a vector. -/
  | index_out_of_range
  /-- Undefined: use of a reference to an element that was destroyed. -/
  | dangling_reference
deriving DecidableEq, Repr

/-- The failures that are `CHECK`s. -/
def Failure.is_check : Failure → Bool
  | .check_step_positive => true
  | .check_alpha_k => true
  | .check_not_empty => true
  | .check_size_lt => true
  | .check_size_eq => true
  | .check_state_sizes => true
  | _ => false

/-- The `CHECK`s of `StartupSolve` on the size of the window. -/
def Failure.is_window_size_check : Failure → Bool
  | .check_not_empty => true
  | .check_size_lt => true
  | .check_size_eq => true
  | _ => false

/-- How a call ends. -/
inductive Outcome (σ : Type) where
  | returned (s : σ)
  | fatal (f : Failure) (s : σ)
  | out_of_fuel

/-- Conversion of an `int` to `size_t` (64 bits), as happens when an `int` meets
`previous_steps.size()` in a comparison or a subtraction. -/
def size_t (i : Int) : Nat := (i % 18446744073709551616).toNat

/-- Modelled from the spec: the abstract fixed-step integrator contract
(`NewInstance` followed by `Solve`), whose declaration and whose implementation for the
startup integrator are outside the given sources.  `Solve equation initial_state step
t_final` is the sequence of states that one `NewInstance` and one `Solve(t_final, ...)`
pass to the publication callback, oldest first. -/
structure FixedStepSizeIntegrator (P : Type) where
  Solve : ODE P → SystemState P → ℚ → ℚ → List (SystemState P)

/-- The serialization tags of the catalog. -/
inductive Kind where
  | QUINLAN_1999_ORDER_8A
  | QUINLAN_1999_ORDER_8B
  | QUINLAN_TREMAINE_1990_ORDER_8
  | QUINLAN_TREMAINE_1990_ORDER_10
  | QUINLAN_TREMAINE_1990_ORDER_12
  | QUINLAN_TREMAINE_1990_ORDER_14
deriving DecidableEq, Repr

/-- The integrator `SymmetricLinearMultistepIntegrator<Position, order_>`: the template
parameter `order_` and the members set by the constructor.  The tables are
`FixedVector<double, half_order_>`. -/
structure SymmetricLinearMultistepIntegrator (P : Type) where
  order_ : Nat
  kind : Kind
  startup_integrator_ : FixedStepSizeIntegrator P
  α_ : List ℚ
  β_numerator_ : List ℚ
  β_denominator_ : ℚ

/-- Modelled from the spec: the two conversions between a window `Step` and a
`SystemState` that `StartupSolve` relies on (`startup_initial_state = previous_steps.back()`
and `previous_steps.push_back(state)`), and the object `current_state` inspected by the
constructor of `Instance`; their declarations are outside the given sources. -/
structure Declarations (P : Type) where
  state_of_step : Step P → SystemState P
  step_of_state : SystemState P → Step P
  current_state_position_size : Nat
  current_state_velocities_size : Nat

/-! ## Elementary operations -/

/-- The loop `for (int i = first; i < first + count; ++i)`, which stops at the first
failure of its body. -/
def for_loop {σ : Type} (body : Nat → σ → Except Failure σ) : Nat → Nat → σ → Except Failure σ
  | _, 0, s => .ok s
  | first, count + 1, s =>
    match body first s with
    | .ok s' => for_loop body (first + 1) count s'
    | .error f => .error f

/-- Reading `v[d]` (a `std::vector` or a `FixedVector`). -/
def vector_get {T : Type} (v : List T) (d : Nat) : Except Failure T :=
  match v[d]? with
  | some x => .ok x
  | none => .error .index_out_of_range

/-- Writing `v[d] = x`. -/
def vector_set {T : Type} (v : List T) (d : Nat) (x : T) : Except Failure (List T) :=
  if d < v.length then .ok (v.set d x) else .error .index_out_of_range

/-- Reading through a forward iterator that is `i` increments after `begin()`. -/
def deref_forward {T : Type} (xs : List T) (i : Nat) : Except Failure T :=
  match xs[i]? with
  | some x => .ok x
  | none => .error .iterator_out_of_range

/-- Reading through a reverse iterator that is `r` increments after `rbegin()` (a negative
`r` counts decrements): it designates the element `r` places before the last one, and no
element when `r` is negative or at least the size of the container. -/
def deref_reverse {T : Type} (xs : List T) (r : Int) : Except Failure T :=
  if 0 ≤ r then
    match xs.reverse[r.toNat]? with
    | some x => .ok x
    | none => .error .iterator_out_of_range
  else .error .iterator_out_of_range

/-! ## `Solve`: the main loop -/

section solve

variable {P : Type} [AddCommGroup P] [Module ℚ P]

/-- The two accumulators of `Solve`, `Σj_minus_ɑj_qj` and `Σj_βj_numerator_aj`. -/
structure Sums (P : Type) where
  sum_minus_αj_qj : List (DoublePrecision P)
  sum_βj_numerator_aj : List P

/-- The body of `for (int d = 0; d < dimension; d++)` inside the loop on `j`. -/
def stencil_dof (αj βj_numerator : ℚ) (qj qk_minus_j aj ak_minus_j : List P)
    (d : Nat) (s : Sums P) : Except Failure (Sums P) := do
  let qj_d ← vector_get qj d
  let qk_minus_j_d ← vector_get qk_minus_j d
  let sum_q ← vector_get s.sum_minus_αj_qj d
  let sum_minus_αj_qj ←
    vector_set s.sum_minus_αj_qj d (sum_q.Increment ((-αj) • (qj_d + qk_minus_j_d)))
  let aj_d ← vector_get aj d
  let ak_minus_j_d ← vector_get ak_minus_j d
  let sum_a ← vector_get s.sum_βj_numerator_aj d
  let sum_βj_numerator_aj ←
    vector_set s.sum_βj_numerator_aj d (sum_a + βj_numerator • (aj_d + ak_minus_j_d))
  pure { sum_minus_αj_qj := sum_minus_αj_qj, sum_βj_numerator_aj := sum_βj_numerator_aj }

/-- The variables of the loop `for (int j = 0; j <= k / 2; ++j)`: the position of
`front_it` after `begin()`, the position of `back_it` after `rbegin()`, and the sums. -/
structure Stencil (P : Type) where
  front_it : Nat
  back_it : Int
  sums : Sums P

/-- The body of `for (int j = 0; j <= k / 2; ++j)`; it ends with `++front_it; --back_it;`. -/
def stencil_body (integ : SymmetricLinearMultistepIntegrator P)
    (previous_steps : List (Step P)) (dimension : Nat) (j : Nat) (s : Stencil P) :
    Except Failure (Stencil P) := do
  let front ← deref_forward previous_steps s.front_it
  let back ← deref_reverse previous_steps s.back_it
  let αj ← vector_get integ.α_ j
  let βj_numerator ← vector_get integ.β_numerator_ j
  let sums ← for_loop
    (stencil_dof αj βj_numerator front.displacements back.displacements
      front.accelerations back.accelerations) 0 dimension s.sums
  pure { front_it := s.front_it + 1, back_it := s.back_it - 1, sums := sums }

/-- The variables of `for (int d = 0; d < dimension; d++)` that fills the new step. -/
structure Fill (P : Type) where
  current_step : Step P
  positions : List P
  system_state : SystemState P

/-- The body of the loop that fills the new step. -/
def fill_dof (h β_denominator_ : ℚ) (sums : Sums P) (d : Nat) (s : Fill P) :
    Except Failure (Fill P) := do
  let sum_q ← vector_get sums.sum_minus_αj_qj d
  let sum_a ← vector_get sums.sum_βj_numerator_aj d
  let current_position := sum_q.Increment (β_denominator_⁻¹ • ((h * h) • sum_a))
  let displacements ← vector_set s.current_step.displacements d (current_position.value - 0)
  let positions := s.positions ++ [current_position.value]
  let state_positions ← vector_set s.system_state.positions d current_position
  pure { current_step := { s.current_step with displacements := displacements },
         positions := positions,
         system_state := { s.system_state with positions := state_positions } }

/-- The variables of `Solve` that live across the iterations of the `while` loop: the
index in `previous_steps` of the element whose `time` the reference `t` designates, and
the sums (which are declared before the loop). -/
structure Locals (P : Type) where
  t : Nat
  sums : Sums P

/-- One execution of the body of `while (h <= (t_final - t.value) - t.error)`.  A failure
is returned with the run as it stands at that point. -/
def iteration (integ : SymmetricLinearMultistepIntegrator P) (run : Run P)
    (loc : Locals P) (dimension : Nat) : Except (Failure × Run P) (Run P × Locals P) :=
  let h := run.inst.step
  let k := integ.order_
  match for_loop (stencil_body integ run.inst.previous_steps dimension) 0 (k / 2 + 1)
      { front_it := 0, back_it := 0, sums := loc.sums } with
  | .error f => .error (f, run)
  | .ok stencil =>
    -- previous_steps.pop_front(); previous_steps.emplace_back();
    let popped := run.inst.previous_steps.tail
    let created : Run P :=
      { run with inst := { run.inst with previous_steps := popped ++ [Step.default] },
                 appended := run.appended + 1 }
    -- current_step.time = t;
    match loc.t with
    | 0 => .error (.dangling_reference, created)
    | t_index + 1 =>
      match popped[t_index]? with
      | none => .error (.dangling_reference, created)
      | some referent =>
        let t := referent.time
        let current_step : Step P := { Step.default with time := t }
        let timed : Run P :=
          { created with inst := { run.inst with previous_steps := popped ++ [current_step] } }
        -- double const ɑk = ɑ_[0]; CHECK_EQ(ɑk, 1.0);
        match vector_get integ.α_ 0 with
        | .error f => .error (f, timed)
        | .ok αk =>
          if αk ≠ 1 then .error (.check_alpha_k, timed) else
          match for_loop (fill_dof h integ.β_denominator_ stencil.sums) 0 dimension
              { current_step := current_step, positions := [],
                system_state := SystemState.default } with
          | .error f => .error (f, timed)
          | .ok filled =>
            -- equation.compute_acceleration(t.value, positions, &current_step.accelerations);
            let accelerations := run.inst.equation.compute_acceleration t.value filled.positions
            let current_step := { filled.current_step with accelerations := accelerations }
            -- system_state.velocities = ...(dimension); system_state.time = t;
            let system_state : SystemState P :=
              { filled.system_state with
                velocities := List.replicate dimension DoublePrecision.default, time := t }
            -- append_state(system_state); t.Increment(h);
            let incremented := popped.set t_index { referent with time := t.Increment h }
            .ok ({ inst := { run.inst with previous_steps := incremented ++ [current_step] },
                   ode_calls := run.ode_calls ++ [(t.value, filled.positions)],
                   published := run.published ++ [system_state],
                   appended := run.appended + 1 },
                 { t := t_index, sums := stencil.sums })

/-- The condition `h <= (t_final - t.value) - t.error` of the `while` loop, read through
the reference `t`. -/
def loop_condition (t_final : ℚ) (run : Run P) (loc : Locals P) : Except Failure Bool :=
  match run.inst.previous_steps[loc.t]? with
  | none => .error .dangling_reference
  | some referent =>
    .ok (decide (run.inst.step ≤ (t_final - referent.time.value) - referent.time.error))

/-- The loop `while (h <= (t_final - t.value) - t.error)`, for at most `fuel` iterations. -/
def main_loop (integ : SymmetricLinearMultistepIntegrator P) (t_final : ℚ)
    (dimension : Nat) : Nat → Run P → Locals P → Outcome (Run P)
  | 0, run, loc =>
    match loop_condition t_final run loc with
    | .error f => .fatal f run
    | .ok false => .returned run
    | .ok true => .out_of_fuel
  | fuel + 1, run, loc =>
    match loop_condition t_final run loc with
    | .error f => .fatal f run
    | .ok false => .returned run
    | .ok true =>
      match iteration integ run loc dimension with
      | .error (f, run') => .fatal f run'
      | .ok (run', loc') => main_loop integ t_final dimension fuel run' loc'

/-! ## `StartupSolve`, `Solve` and `NewInstance` -/

/-- The callback `startup_append_state` of `StartupSolve`: `push_back(state)`, then
`pop_front()` if the size equals `order_ - 1`. -/
def startup_append_state (integ : SymmetricLinearMultistepIntegrator P)
    (decls : Declarations P) (previous_steps : List (Step P)) (state : SystemState P) :
    List (Step P) :=
  let pushed := previous_steps ++ [decls.step_of_state state]
  if pushed.length = size_t ((integ.order_ : Int) - 1) then pushed.tail else pushed

/-- The function `StartupSolve`.  The states published by the startup integrator go to
`startup_append_state` only. -/
def StartupSolve (integ : SymmetricLinearMultistepIntegrator P) (decls : Declarations P)
    (t_final : ℚ) (run : Run P) : Outcome (Run P) :=
  let previous_steps := run.inst.previous_steps
  let step := run.inst.step
  -- CHECK(!previous_steps.empty());
  match previous_steps.getLast? with
  | none => .fatal .check_not_empty run
  | some back =>
    -- CHECK_LT(previous_steps.size(), order_ - 1);
    if ¬ previous_steps.length < size_t ((integ.order_ : Int) - 1) then
      .fatal .check_size_lt run
    else
      let startup_initial_state := decls.state_of_step back
      let states := integ.startup_integrator_.Solve run.inst.equation startup_initial_state step
        (min (startup_initial_state.time.value +
              (size_t ((integ.order_ : Int) - 1 - previous_steps.length) : ℚ) * step)
             t_final)
      let run' : Run P :=
        { run with inst := { run.inst with
            previous_steps := states.foldl (startup_append_state integ decls) previous_steps } }
      -- CHECK_EQ(previous_steps.size(), order_ - 1);
      if run'.inst.previous_steps.length = size_t ((integ.order_ : Int) - 1) then
        .returned run'
      else .fatal .check_size_eq run'

/-- The function `Solve`, its `while` loop running for at most `fuel` iterations. -/
def Solve (integ : SymmetricLinearMultistepIntegrator P) (decls : Declarations P)
    (fuel : Nat) (t_final : ℚ) (run : Run P) : Outcome (Run P) :=
  let started :=
    if run.inst.previous_steps.length < size_t ((integ.order_ : Int) - 1) then
      StartupSolve integ decls t_final run
    else .returned run
  match started with
  | .out_of_fuel => .out_of_fuel
  | .fatal f run' => .fatal f run'
  | .returned run' =>
    -- int const dimension = previous_steps.back().displacements.size();
    match run'.inst.previous_steps.getLast? with
    | none => .fatal .back_of_empty run'
    | some back =>
      let dimension := back.displacements.length
      -- CHECK_LT(Time(), step);
      if ¬ 0 < run'.inst.step then .fatal .check_step_positive run' else
      -- DoublePrecision<Instant>& t = previous_steps.back().time;
      main_loop integ t_final dimension fuel run'
        { t := run'.inst.previous_steps.length - 1,
          sums := { sum_minus_αj_qj := List.replicate dimension DoublePrecision.default,
                    sum_βj_numerator_aj := List.replicate dimension 0 } }

/-- The constructor of `Instance`, which `NewInstance` forwards to.  The vector handed
to `compute_acceleration` is `acceleration`; the vector stored in the first step is the
local `accelerations`. -/
def NewInstance (decls : Declarations P) (problem : IntegrationProblem P) (step : ℚ) :
    Outcome (Run P × List P) :=
  let equation := problem.equation
  let constructed : Run P :=
    { inst := { equation := equation, step := step, previous_steps := [] },
      ode_calls := [], published := [], appended := 0 }
  -- CHECK_EQ(current_state.position.size(), current_state.velocities.size());
  if decls.current_state_position_size ≠ decls.current_state_velocities_size then
    .fatal .check_state_sizes (constructed, [])
  else
    let accelerations : List P := []
    let positions := problem.initial_state.positions.map (fun initial_position =>
      initial_position.value)
    -- equation.compute_acceleration(problem.initial_state.time.value, positions, &acceleration);
    let acceleration :=
      equation.compute_acceleration problem.initial_state.time.value positions
    -- previous_steps.push_back({problem.initial_state.positions, accelerations, ...time});
    .returned
      ({ constructed with
          inst := { constructed.inst with
            previous_steps :=
              [{ displacements := problem.initial_state.positions.map (fun p => p.value - 0),
                 accelerations := accelerations,
                 time := problem.initial_state.time }] },
          ode_calls := [(problem.initial_state.time.value, positions)] },
       acceleration)

/-! ## The catalog -/

/-- The catalog entry `Quinlan1999Order8A`, given the startup integrator `McLachlanAtela1992Order5Optimal`. -/
def Quinlan1999Order8A (McLachlanAtela1992Order5Optimal : FixedStepSizeIntegrator P) :
    SymmetricLinearMultistepIntegrator P :=
  { order_ := 8
    kind := .QUINLAN_1999_ORDER_8A
    startup_integrator_ := McLachlanAtela1992Order5Optimal
    α_ := [1, -2, 2, -2, 2]
    β_numerator_ := [0, 22081, -29418, 75183, -75212]
    β_denominator_ := 15120 }

/-- The catalog entry `Quinlan1999Order8B`. -/
def Quinlan1999Order8B (McLachlanAtela1992Order5Optimal : FixedStepSizeIntegrator P) :
    SymmetricLinearMultistepIntegrator P :=
  { order_ := 8
    kind := .QUINLAN_1999_ORDER_8B
    startup_integrator_ := McLachlanAtela1992Order5Optimal
    α_ := [1, 0, 0, -1 / 2, -1]
    β_numerator_ := [0, 192481, 6582, 816783, -156812]
    β_denominator_ := 120960 }

/-- The catalog entry `QuinlanTremaine1990Order8`. -/
def QuinlanTremaine1990Order8 (McLachlanAtela1992Order5Optimal : FixedStepSizeIntegrator P) :
    SymmetricLinearMultistepIntegrator P :=
  { order_ := 8
    kind := .QUINLAN_TREMAINE_1990_ORDER_8
    startup_integrator_ := McLachlanAtela1992Order5Optimal
    α_ := [1, -2, 2, -1, 0]
    β_numerator_ := [0, 17671, -23622, 61449, 50516]
    β_denominator_ := 12096 }

/-- The catalog entry `QuinlanTremaine1990Order10`. -/
def QuinlanTremaine1990Order10 (McLachlanAtela1992Order5Optimal : FixedStepSizeIntegrator P) :
    SymmetricLinearMultistepIntegrator P :=
  { order_ := 10
    kind := .QUINLAN_TREMAINE_1990_ORDER_10
    startup_integrator_ := McLachlanAtela1992Order5Optimal
    α_ := [1, -1, 1, -1, 1, 2]
    β_numerator_ := [0, 399187, -485156, 2391436, -2816732, 4651330]
    β_denominator_ := 241920 }

/-- The catalog entry `QuinlanTremaine1990Order12`. -/
def QuinlanTremaine1990Order12 (McLachlanAtela1992Order5Optimal : FixedStepSizeIntegrator P) :
    SymmetricLinearMultistepIntegrator P :=
  { order_ := 12
    kind := .QUINLAN_TREMAINE_1990_ORDER_12
    startup_integrator_ := McLachlanAtela1992Order5Optimal
    α_ := [1, -2, 2, -1, 0, 0, 0]
    β_numerator_ :=
      [0, 90987349, -229596838, 812627169, -1628539944, 2714971338, -3041896548]
    β_denominator_ := 53222400 }

/-- The catalog entry `QuinlanTremaine1990Order14`. -/
def QuinlanTremaine1990Order14 (McLachlanAtela1992Order5Optimal : FixedStepSizeIntegrator P) :
    SymmetricLinearMultistepIntegrator P :=
  { order_ := 14
    kind := .QUINLAN_TREMAINE_1990_ORDER_14
    startup_integrator_ := McLachlanAtela1992Order5Optimal
    α_ := [1, -2, 2, -1, 0, 0, 0, 0]
    β_numerator_ :=
      [0, 433489274083, -1364031998256, 5583113380398, -14154444148720, 28630585332045,
       -42056933842656, 48471792742212]
    β_denominator_ := 237758976000 }

/-- The six published catalog entries. -/
def catalog (McLachlanAtela1992Order5Optimal : FixedStepSizeIntegrator P) :
    List (SymmetricLinearMultistepIntegrator P) :=
  [Quinlan1999Order8A McLachlanAtela1992Order5Optimal,
   Quinlan1999Order8B McLachlanAtela1992Order5Optimal,
   QuinlanTremaine1990Order8 McLachlanAtela1992Order5Optimal,
   QuinlanTremaine1990Order10 McLachlanAtela1992Order5Optimal,
   QuinlanTremaine1990Order12 McLachlanAtela1992Order5Optimal,
   QuinlanTremaine1990Order14 McLachlanAtela1992Order5Optimal]

end solve

/-! ## Sample inputs

Free motion in the plane: a single degree of freedom that leaves the origin at time `0`
with velocity `(1, 0)` under no acceleration, sampled with step `1`. -/

/-- A startup integrator that publishes one state per step of size `step` up to the
bound it is handed; it moves each position along its velocity. -/
def free_flight_startup : FixedStepSizeIntegrator (ℚ × ℚ) where
  Solve _ initial_state step t_final :=
    (List.range ⌊(t_final - initial_state.time.value) / step⌋₊).map fun i =>
      { positions := List.zipWith
          (fun q v => { value := q.value + (((i : ℚ) + 1) * step) • v.value, error := 0 })
          initial_state.positions initial_state.velocities
        velocities := initial_state.velocities
        time := { value := initial_state.time.value + ((i : ℚ) + 1) * step, error := 0 } }

/-- Conversions for the sample: a step is read as a state with velocity `(1, 0)`, a state
as a step without acceleration. -/
def sample_declarations : Declarations (ℚ × ℚ) where
  state_of_step s :=
    { positions := s.displacements.map fun q => { value := q, error := 0 }
      velocities := s.displacements.map fun _ => { value := (1, 0), error := 0 }
      time := s.time }
  step_of_state s :=
    { displacements := s.positions.map fun q => q.value
      accelerations := s.positions.map fun _ => (0, 0)
      time := s.time }
  current_state_position_size := 0
  current_state_velocities_size := 0

/-- The equation of free motion. -/
def free_equation : ODE (ℚ × ℚ) where
  compute_acceleration _ positions := positions.map fun _ => (0, 0)

/-- The window entry of the free motion at time `i`: displacement `(i, 0)`, no
acceleration. -/
def free_step (i : ℚ) : Step (ℚ × ℚ) :=
  { displacements := [(i, 0)], accelerations := [(0, 0)], time := { value := i, error := 0 } }

/-- An instance of free motion with the given step and window, before any call. -/
def free_run (step : ℚ) (previous_steps : List (Step (ℚ × ℚ))) : Run (ℚ × ℚ) :=
  { inst := { equation := free_equation, step := step, previous_steps := previous_steps },
    ode_calls := [], published := [], appended := 0 }

/-- The full window of an integrator of order 8: the seven entries at times `0, ..., 6`. -/
def free_window : List (Step (ℚ × ℚ)) :=
  [free_step 0, free_step 1, free_step 2, free_step 3, free_step 4, free_step 5, free_step 6]

/-- A problem with one degree of freedom, at position `(3, 4)` with velocity `(1, 0)` at
time `2`, and an equation that answers the acceleration `(5, 0)`. -/
def sample_problem : IntegrationProblem (ℚ × ℚ) :=
  { equation := { compute_acceleration := fun _ positions => positions.map fun _ => (5, 0) },
    initial_state :=
      { positions := [{ value := (3, 4), error := 0 }],
        velocities := [{ value := (1, 0), error := 0 }],
        time := { value := 2, error := 0 } } }

/-- A configuration of order 1, with one coefficient in each table. -/
def order_one : SymmetricLinearMultistepIntegrator (ℚ × ℚ) :=
  { order_ := 1
    kind := .QUINLAN_1999_ORDER_8A
    startup_integrator_ := free_flight_startup
    α_ := [1]
    β_numerator_ := [0]
    β_denominator_ := 1 }

/-- A window entry at time `i` for a system without any degree of freedom. -/
def bare_step (i : ℚ) : Step (ℚ × ℚ) :=
  { displacements := [], accelerations := [], time := { value := i, error := 0 } }

/-- Four entries without degree of freedom, at times `0, ..., 3`. -/
def bare_window : List (Step (ℚ × ℚ)) :=
  [bare_step 0, bare_step 1, bare_step 2, bare_step 3]

/-- The coefficient `j` of the method of order `k` whose half table is `table`: the table is
extended symmetrically, the coefficients `j` and `k - j` both being the entry
`min(j, k - j)`. -/
def extended (table : List ℚ) (k j : Nat) : ℚ := table.getD (min j (k - j)) 0

/-- The sum of the coefficients `alpha_j`, for `j` from `0` to `k`. -/
def sum_α {P : Type} (integ : SymmetricLinearMultistepIntegrator P) : ℚ :=
  ((List.range (integ.order_ + 1)).map fun j => extended integ.α_ integ.order_ j).sum

/-- The sum of `j^2 * alpha_j`, for `j` from `0` to `k`. -/
def sum_j2_α {P : Type} (integ : SymmetricLinearMultistepIntegrator P) : ℚ :=
  ((List.range (integ.order_ + 1)).map fun (j : Nat) =>
    (j : ℚ) ^ 2 * extended integ.α_ integ.order_ j).sum

/-- The sum of the numerators `beta_j`, for `j` from `0` to `k`. -/
def sum_β {P : Type} (integ : SymmetricLinearMultistepIntegrator P) : ℚ :=
  ((List.range (integ.order_ + 1)).map fun j =>
    extended integ.β_numerator_ integ.order_ j).sum

/-- The two conditions of consistency of a multistep method for a second-order equation. -/
def consistent {P : Type} (integ : SymmetricLinearMultistepIntegrator P) : Prop :=
  sum_α integ = 0 ∧ sum_j2_α integ = 2 * sum_β integ / integ.β_denominator_

/-! ## The startup run -/

/-- The bound of the startup run in the words of its contract: `min(t_s + (order - 1 - s) *
step, t_final)`, where `t_s` is the time of the newest step `back` of the window and `s` the
size of the window on entry. -/
def startup_bound {P : Type} (integ : SymmetricLinearMultistepIntegrator P) (t_final : ℚ)
    (run : Run P) (back : Step P) : ℚ :=
  min (back.time.value +
    ((integ.order_ - 1 - run.inst.previous_steps.length : Nat) : ℚ) * run.inst.step) t_final

/-- The states that the startup integrator publishes when it is run from the newest step
`back` of the window with the step of the instance up to `startup_bound`. -/
def startup_states {P : Type} (integ : SymmetricLinearMultistepIntegrator P)
    (decls : Declarations P) (t_final : ℚ) (run : Run P) (back : Step P) :
    List (SystemState P) :=
  integ.startup_integrator_.Solve run.inst.equation (decls.state_of_step back) run.inst.step
    (startup_bound integ t_final run back)
end integrators

/-! # Time scales

A shallow embedding of `astronomy/time_scales_body.hpp`.  A `quantities::Time` is its
number of seconds and an `Instant` the number of seconds since `J2000`, both in `ℚ`; the
floating-point literals are read as the decimals they spell. -/

namespace astronomy

/-! ## Dates and times of day -/

/-- What ends a `constexpr` evaluation other than its value. -/
inductive Fault where
  /-- A `CHECKING` whose condition does not hold. -/
  | check_failed
  /-- A read outside the array that a pointer or an index designates. -/
  | out_of_bounds
deriving DecidableEq, Repr

/-- Modelled from the spec: the macro `CHECKING(condition, expression)` (its definition is
outside the given sources): the expression when the condition holds, a fatal check
failure otherwise. -/
def CHECKING {α : Type} (condition : Bool) (expression : Except Fault α) : Except Fault α :=
  if condition then expression else .error .check_failed

/-- Modelled from the spec: the class `Date` of `astronomy/date_time.hpp` (outside the
given sources), a date of the Gregorian calendar given by `year()`, `month()`, `day()`. -/
structure Date where
  year : Int
  month : Int
  day : Int
deriving DecidableEq, Repr

/-- Modelled from the spec: whether a year of the Gregorian calendar is a leap year. -/
def is_gregorian_leap_year (year : Int) : Bool :=
  year % 4 = 0 ∧ (year % 100 ≠ 0 ∨ year % 400 = 0)

/-- Modelled from the spec: the number of days of a month of the Gregorian calendar. -/
def month_length (year month : Int) : Int :=
  if month = 2 then (if is_gregorian_leap_year year then 29 else 28)
  else if month = 4 ∨ month = 6 ∨ month = 9 ∨ month = 11 then 30 else 31

/-- Modelled from the spec: the dates that exist in the calendar. -/
def Date.valid (date : Date) : Prop :=
  1 ≤ date.month ∧ date.month ≤ 12 ∧ 1 ≤ date.day ∧
    date.day ≤ month_length date.year date.month

instance (date : Date) : Decidable date.valid := by
  unfold Date.valid
  infer_instance

/-- Modelled from the spec: the factory `Date::Calendar(year, month, day)`, which checks
that the date exists. -/
def Date.Calendar (year month day : Int) : Except Fault Date :=
  CHECKING (decide (Date.valid { year := year, month := month, day := day }))
    (.ok { year := year, month := month, day := day })

/-- Modelled from the spec: the factory `Date::YYYYMMDD`, which reads an integer of the
form `YYYY'MM'DD`. -/
def Date.YYYYMMDD (digits : Int) : Except Fault Date :=
  Date.Calendar (digits / 10000) (digits / 100 % 100) (digits % 100)

/-- Modelled from the spec: the member `Date::mjd()`, the Modified Julian Day number of
the date (`0` on 1858-11-17, `51544` on 2000-01-01). -/
def Date.mjd (date : Date) : Int :=
  let a : Int := if date.month ≤ 2 then 1 else 0
  let y := date.year - a
  let m := date.month + 12 * a - 3
  365 * y + y / 4 - y / 100 + y / 400 + (153 * m + 2) / 5 + date.day - 1 - 678881

/-- Modelled from the spec: the member `Date::next_day()`. -/
def Date.next_day (date : Date) : Date :=
  if date.day < month_length date.year date.month then { date with day := date.day + 1 }
  else if date.month < 12 then { year := date.year, month := date.month + 1, day := 1 }
  else { year := date.year + 1, month := 1, day := 1 }

/-- Modelled from the spec: the comparison `operator<` of dates. -/
def Date.before (left right : Date) : Bool :=
  left.year < right.year ∨
    (left.year = right.year ∧
      (left.month < right.month ∨ (left.month = right.month ∧ left.day < right.day)))

/-- Modelled from the spec: the class `Time` of `astronomy/date_time.hpp`, a time of day
given by `hour()`, `minute()`, `second()`, `millisecond()`. -/
structure Time where
  hour : Int
  minute : Int
  second : Int
  millisecond : Int
deriving DecidableEq, Repr

/-- Modelled from the spec: the member `Time::is_leap_second()`. -/
def Time.is_leap_second (time : Time) : Bool := time.second = 60

/-- Modelled from the spec: the class `DateTime`, with members `date()` and `time()`. -/
structure DateTime where
  date : Date
  time : Time
deriving DecidableEq, Repr

/-- Modelled from the spec: the factory `DateTime::BeginningOfDay`. -/
def DateTime.BeginningOfDay (date : Date) : DateTime :=
  { date := date, time := { hour := 0, minute := 0, second := 0, millisecond := 0 } }

/-! ## Units and conversions to `Instant` -/

/-- The unit `Second`. -/
def Second : ℚ := 1

/-- The unit `Day`. -/
def Day : ℚ := 86400

/-- The instant `J2000`, origin of `Instant`. -/
def J2000 : ℚ := 0

/-- The function `TimeScale`. -/
def TimeScale (date_time : DateTime) : ℚ :=
  ((date_time.time.millisecond : ℚ) / 1000) * Second +
    ((date_time.time.second +
      60 * (date_time.time.minute +
        60 * (date_time.time.hour - 12 +
          24 * (date_time.date.mjd - (Date.mk 2000 1 1).mjd))) : Int) : ℚ) * Second

/-- The function `mjd` of a `quantities::Time`. -/
def mjd (from_j2000 : ℚ) : ℚ := from_j2000 / Day + 51544.5

/-- The function `FromTT`. -/
def FromTT (from_j2000 : ℚ) : ℚ := J2000 + from_j2000

/-- The function `FromTAI`. -/
def FromTAI (tai : ℚ) : ℚ := FromTT (tai + 32.184 * Second)

/-! ## Modern UTC -/

/-- The table `leap_seconds`, two entries a year from 1972 to 2016. -/
def leap_seconds : List Int :=
  [1, 1,  -- 1972
   0, 1,  -- 1973
   0, 1,  -- 1974
   0, 1,  -- 1975
   0, 1,  -- 1976
   0, 1,  -- 1977
   0, 1,  -- 1978
   0, 1,  -- 1979
   0, 0,  -- 1980
   1, 0,  -- 1981
   1, 0,  -- 1982
   1, 0,  -- 1983
   0, 0,  -- 1984
   1, 0,  -- 1985
   0, 0,  -- 1986
   0, 1,  -- 1987
   0, 0,  -- 1988
   0, 1,  -- 1989
   0, 1,  -- 1990
   0, 0,  -- 1991
   1, 0,  -- 1992
   1, 0,  -- 1993
   1, 0,  -- 1994
   0, 1,  -- 1995
   0, 0,  -- 1996
   1, 0,  -- 1997
   0, 1,  -- 1998
   0, 0,  -- 1999
   0, 0,  -- 2000
   0, 0,  -- 2001
   0, 0,  -- 2002
   0, 0,  -- 2003
   0, 0,  -- 2004
   0, 1,  -- 2005
   0, 0,  -- 2006
   0, 0,  -- 2007
   0, 1,  -- 2008
   0, 0,  -- 2009
   0, 0,  -- 2010
   0, 0,  -- 2011
   1, 0,  -- 2012
   0, 0,  -- 2013
   0, 0,  -- 2014
   1, 0,  -- 2015
   0, 1]  -- 2016

/-- Reading `leap_seconds[i]` for an `int` index `i`. -/
def leap_seconds_at (i : Int) : Except Fault Int :=
  if 0 ≤ i then
    match leap_seconds[i.toNat]? with
    | some entry => .ok entry
    | none => .error .out_of_bounds
  else .error .out_of_bounds

/-- The comparison `i < size` of an `int` with a `size_t`: the `int` is converted to
`size_t`, so that the comparison holds exactly when `i` is non-negative and below `size`. -/
def int_below_size (i : Int) (size : Nat) : Bool := 0 ≤ i ∧ i < size

/-- The function `LeapSecond`. -/
def LeapSecond (year month : Int) : Except Fault Int :=
  if month = 6 then
    CHECKING (int_below_size ((year - 1972) * 2) leap_seconds.length)
      (leap_seconds_at ((year - 1972) * 2))
  else
    CHECKING (decide (month = 12))
      (CHECKING (int_below_size ((year - 1972) * 2 + 1) leap_seconds.length)
        (leap_seconds_at ((year - 1972) * 2 + 1)))


/-- The function `ModernUTCMinusTAI`, its operands evaluated from left to right. -/
def ModernUTCMinusTAI (utc_date : Date) : Except Fault ℚ :=
  if utc_date.month = 1 ∧ utc_date.day = 1 then
    if utc_date.year = 1972 then .ok (-10 * Second)
    else
      match hjune : LeapSecond (utc_date.year - 1) 6 with
      | .error f => .error f
      | .ok june =>
        match LeapSecond (utc_date.year - 1) 12 with
        | .error f => .error f
        | .ok december =>
          match hjanuary : Date.Calendar (utc_date.year - 1) 1 1 with
          | .error f => .error f
          | .ok january =>
            match ModernUTCMinusTAI january with
            | .error f => .error f
            | .ok rest => .ok (-(june : ℚ) * Second + -(december : ℚ) * Second + rest)
  else
    match (if utc_date.month > 6 then
        match LeapSecond utc_date.year 6 with
        | .error f => .error f
        | .ok june => .ok (-(june : ℚ) * Second)
      else .ok (0 * Second) : Except Fault ℚ) with
    | .error f => .error f
    | .ok june =>
      match hjanuary : Date.Calendar utc_date.year 1 1 with
      | .error f => .error f
      | .ok january =>
        match ModernUTCMinusTAI january with
        | .error f => .error f
        | .ok rest => .ok (june + rest)
termination_by (utc_date.year - 1972).toNat * 2 +
  (if utc_date.month = 1 ∧ utc_date.day = 1 then 0 else 1)
decreasing_by
  · have hdate : january = { year := utc_date.year - 1, month := 1, day := 1 } := by
      unfold Date.Calendar CHECKING at hjanuary
      split at hjanuary
      · cases hjanuary; rfl
      · cases hjanuary
    have hyear : 1972 ≤ utc_date.year - 1 := by
      unfold LeapSecond CHECKING at hjune
      simp only [if_true] at hjune
      split at hjune
      · rename_i hindex
        simp only [int_below_size, decide_eq_true_eq] at hindex
        omega
      · cases hjune
    subst hdate
    simp only [and_self, if_true]
    rw [if_pos (by assumption)]
    omega
  · have hdate : january = { year := utc_date.year, month := 1, day := 1 } := by
      unfold Date.Calendar CHECKING at hjanuary
      split at hjanuary
      · cases hjanuary; rfl
      · cases hjanuary
    subst hdate
    simp only [and_self, if_true]
    rw [if_neg (by assumption)]
    omega

/-- The number of `+1` entries of `leap_seconds` for the month ends (30 June and
31 December) that precede a date from 1972 on: both entries of each earlier year and,
from July on, the June entry of the year of the date. -/
def leap_seconds_before (date : Date) : Nat :=
  (leap_seconds.take
    ((date.year - 1972).toNat * 2 + if date.month > 6 then 1 else 0)).count 1

/-! ## Stretchy UTC -/

/-- The function `RateTAIMinusStretchyUTC`. -/
def RateTAIMinusStretchyUTC (utc : DateTime) : ℚ :=
  if utc.date.before { year := 1962, month := 1, day := 1 } then
    (mjd (TimeScale utc) - 37300) * 0.001296 * Second
  else if utc.date.before { year := 1964, month := 1, day := 1 } then
    (mjd (TimeScale utc) - 37665) * 0.0011232 * Second
  else if utc.date.before { year := 1966, month := 1, day := 1 } then
    (mjd (TimeScale utc) - 38761) * 0.001296 * Second
  else (mjd (TimeScale utc) - 39126) * 0.002592 * Second

/-- The function `OffsetTAIMinusStretchyUTC`. -/
def OffsetTAIMinusStretchyUTC (utc_date : Date) : ℚ :=
  if utc_date.before { year := 1961, month := 8, day := 1 } then 1.4228180 * Second
  else if utc_date.before { year := 1962, month := 1, day := 1 } then 1.3728180 * Second
  else if utc_date.before { year := 1963, month := 11, day := 1 } then 1.8458580 * Second
  else if utc_date.before { year := 1964, month := 1, day := 1 } then 1.9458580 * Second
  else if utc_date.before { year := 1964, month := 4, day := 1 } then 3.2401300 * Second
  else if utc_date.before { year := 1964, month := 9, day := 1 } then 3.3401300 * Second
  else if utc_date.before { year := 1965, month := 1, day := 1 } then 3.4401300 * Second
  else if utc_date.before { year := 1965, month := 3, day := 1 } then 3.5401300 * Second
  else if utc_date.before { year := 1965, month := 7, day := 1 } then 3.6401300 * Second
  else if utc_date.before { year := 1965, month := 9, day := 1 } then 3.7401300 * Second
  else if utc_date.before { year := 1966, month := 1, day := 1 } then 3.8401300 * Second
  else if utc_date.before { year := 1968, month := 2, day := 1 } then 4.3131700 * Second
  else 4.2131700 * Second

/-- The function `TAIMinusStretchyUTC`. -/
def TAIMinusStretchyUTC (utc : DateTime) : ℚ :=
  OffsetTAIMinusStretchyUTC utc.date + RateTAIMinusStretchyUTC utc

/-- The function `IsValidPositiveStretchyUTCLeap`. -/
def IsValidPositiveStretchyUTCLeap (utc : DateTime) (next_day : Date) (milliseconds : ℚ) :
    Bool :=
  utc.time.is_leap_second && decide (utc.date.next_day = next_day) &&
    decide ((utc.time.millisecond : ℚ) < milliseconds)

/-- The function `IsValidStretchyUTCIfOnDayOfNegativeLeap`. -/
def IsValidStretchyUTCIfOnDayOfNegativeLeap (utc : DateTime) (next_day : Date)
    (milliseconds : Int) : Except Fault Bool :=
  CHECKING (decide (milliseconds > 0))
    (.ok (decide (utc.date.next_day ≠ next_day) ||
      decide (utc.time.hour < 23) ||
      decide (utc.time.minute < 59) ||
      decide (utc.time.millisecond < 1000 - milliseconds)))

/-- The function `IsValidStretchyUTC`; `&&` evaluates its right operand only when the left
one is true. -/
def IsValidStretchyUTC (utc : DateTime) : Except Fault Bool :=
  if ¬ (utc.date.year ≥ 1961 ∧ utc.date.year < 1972) then .ok false else
  match IsValidStretchyUTCIfOnDayOfNegativeLeap utc { year := 1961, month := 8, day := 1 } 50 with
  | .error f => .error f
  | .ok false => .ok false
  | .ok true =>
    match IsValidStretchyUTCIfOnDayOfNegativeLeap utc
        { year := 1968, month := 2, day := 1 } 100 with
    | .error f => .error f
    | .ok false => .ok false
    | .ok true =>
      .ok (!utc.time.is_leap_second ||
        IsValidPositiveStretchyUTCLeap utc { year := 1963, month := 11, day := 1 } 100 ||
        IsValidPositiveStretchyUTCLeap utc { year := 1964, month := 4, day := 1 } 100 ||
        IsValidPositiveStretchyUTCLeap utc { year := 1964, month := 9, day := 1 } 100 ||
        IsValidPositiveStretchyUTCLeap utc { year := 1965, month := 1, day := 1 } 100 ||
        IsValidPositiveStretchyUTCLeap utc { year := 1965, month := 3, day := 1 } 100 ||
        IsValidPositiveStretchyUTCLeap utc { year := 1965, month := 7, day := 1 } 100 ||
        IsValidPositiveStretchyUTCLeap utc { year := 1965, month := 9, day := 1 } 100 ||
        IsValidPositiveStretchyUTCLeap utc { year := 1972, month := 1, day := 1 } 107.7580)

/-- The time of day in milliseconds since `00:00:00`. -/
def Time.milliseconds_of_day (time : Time) : Int :=
  ((time.hour * 60 + time.minute) * 60 + time.second) * 1000 + time.millisecond

/-- Whether a time of day is earlier than `23:59:59` plus `1000 - milliseconds`
milliseconds, that is, not among the last `milliseconds` milliseconds of the day. -/
def Time.before_negative_leap (time : Time) (milliseconds : Int) : Bool :=
  time.milliseconds_of_day < ((23 * 60 + 59) * 60 + 59) * 1000 + (1000 - milliseconds)

/-! ## UT1 -/

/-- The struct `ExperimentalEOPC02Entry`. -/
structure ExperimentalEOPC02Entry where
  ut1_mjd : ℚ
  ut1_minus_tai : ℚ

/-- The struct `EOPC04Entry`. -/
structure EOPC04Entry where
  utc_date : Int
  ut1_minus_utc : ℚ

/-- The member `EOPC04Entry::utc()`. -/
def EOPC04Entry.utc (entry : EOPC04Entry) : Except Fault DateTime :=
  match Date.YYYYMMDD entry.utc_date with
  | .error f => .error f
  | .ok date => .ok (DateTime.BeginningOfDay date)

/-- The member `EOPC04Entry::ut1()`. -/
def EOPC04Entry.ut1 (entry : EOPC04Entry) : Except Fault ℚ :=
  match entry.utc with
  | .error f => .error f
  | .ok utc => .ok (TimeScale utc + entry.ut1_minus_utc)

/-- The member `EOPC04Entry::ut1_minus_tai()`. -/
def EOPC04Entry.ut1_minus_tai (entry : EOPC04Entry) : Except Fault ℚ :=
  match entry.utc with
  | .error f => .error f
  | .ok utc =>
    if utc.date.year ≥ 1972 then
      match ModernUTCMinusTAI utc.date with
      | .error f => .error f
      | .ok utc_minus_tai => .ok (entry.ut1_minus_utc + utc_minus_tai)
    else .ok (entry.ut1_minus_utc - TAIMinusStretchyUTC utc)

/-- The recursion shared by the two overloads of `LookupUT1`: `at_most_ut1 entry` is the
comparison of the UT1 of an entry with the given `ut1`, `table` is the array that `begin`
points into, and a pointer is its index in `table`.  For a positive `size` the quotient
`size / 2` is the same whether it rounds towards zero or down. -/
def LookupUT1 {Entry : Type} (at_most_ut1 : Entry → Except Fault Bool) (table : List Entry)
    (begin : Nat) (size : Int) : Except Fault Nat :=
  if size > 0 then
    if size = 1 then
      match table[begin]? with
      | none => .error .out_of_bounds
      | some entry =>
        match at_most_ut1 entry with
        | .error f => .error f
        | .ok condition => CHECKING condition (.ok begin)
    else
      match table[begin + (size / 2).toNat]? with
      | none => .error .out_of_bounds
      | some entry =>
        match at_most_ut1 entry with
        | .error f => .error f
        | .ok true => LookupUT1 at_most_ut1 table (begin + (size / 2).toNat) (size - size / 2)
        | .ok false => LookupUT1 at_most_ut1 table begin (size / 2)
  else .error .check_failed
termination_by size.toNat
decreasing_by all_goals omega

/-- The overload of `LookupUT1` for `ExperimentalEOPC02Entry`. -/
def ExperimentalEOPC02Entry.LookupUT1 (ut1 : ℚ) (table : List ExperimentalEOPC02Entry)
    (begin : Nat) (size : Int) : Except Fault Nat :=
  astronomy.LookupUT1 (fun entry => .ok (decide (entry.ut1_mjd ≤ mjd ut1))) table begin size

/-- The overload of `LookupUT1` for `EOPC04Entry`. -/
def EOPC04Entry.LookupUT1 (ut1 : ℚ) (table : List EOPC04Entry) (begin : Nat) (size : Int) :
    Except Fault Nat :=
  astronomy.LookupUT1
    (fun entry =>
      match entry.ut1 with
      | .error f => .error f
      | .ok entry_ut1 => .ok (decide (entry_ut1 ≤ ut1)))
    table begin size

/-- The function `ExperimentalEOPC02ToEOPC04`. -/
def ExperimentalEOPC02ToEOPC04 (low : ExperimentalEOPC02Entry) (high : EOPC04Entry)
    (ut1 : ℚ) : Except Fault ℚ :=
  match high.ut1_minus_tai with
  | .error f => .error f
  | .ok high_ut1_minus_tai =>
    match high.ut1 with
    | .error f => .error f
    | .ok high_ut1 =>
      .ok (FromTAI (ut1 - (low.ut1_minus_tai +
        (mjd ut1 - low.ut1_mjd) * (high_ut1_minus_tai - low.ut1_minus_tai) /
          (mjd high_ut1 - low.ut1_mjd))))

/-- The result that the contract of `LookupUT1` asks for, `key i` being the UT1 of the entry
at index `i`: `found` is in the range `[begin, begin + size[`, the UT1 of its entry is at most
`ut1`, and the UT1 of every later entry of the range is greater than `ut1`. -/
def is_last_at_most (key : Nat → ℚ) (ut1 : ℚ) (begin size found : Nat) : Prop :=
  begin ≤ found ∧ found < begin + size ∧ key found ≤ ut1 ∧
    ∀ j, found < j → j < begin + size → ut1 < key j

/-- Three entries of the C02 series, one a day from MJD 51544. -/
def sample_c02 : List ExperimentalEOPC02Entry :=
  [⟨51544, -32⟩, ⟨51545, -32⟩, ⟨51546, -32⟩]

/-- Three entries of the C04 series, from 2000-01-01 to 2000-01-03. -/
def sample_c04 : List EOPC04Entry :=
  [⟨20000101, 0⟩, ⟨20000102, 0⟩, ⟨20000103, 0⟩]

/-- The UT1, as a Modified Julian Day, of the entry at index `i` of `sample_c02`. -/
def sample_c02_key (i : Nat) : ℚ := 51544 + i

/-- The UT1 of the entry at index `i` of `sample_c04`. -/
def sample_c04_key (i : Nat) : ℚ := -43200 + 86400 * i

/-! ## UTC date-times as instants -/

/-- Modelled from the spec: the member `Time::is_end_of_day()` (its declaration is outside the
given sources): whether the time is `24:00:00`. -/
def Time.is_end_of_day (time : Time) : Bool := time.hour = 24

/-- Modelled from the spec: the member `DateTime::normalized_end_of_day()` (its declaration
is outside the given sources): `24:00:00` on a day, rewritten as `00:00:00` on the next
day. -/
def DateTime.normalized_end_of_day (date_time : DateTime) : Except Fault DateTime :=
  CHECKING date_time.time.is_end_of_day
    (.ok { date := date_time.date.next_day,
           time := { hour := 0, minute := 0, second := 0, millisecond := 0 } })

/-- The function `IsValidModernUTC`; `LeapSecond` is evaluated for a leap second only. -/
def IsValidModernUTC (date_time : DateTime) : Except Fault Bool :=
  if !date_time.time.is_leap_second then .ok true
  else
    match LeapSecond date_time.date.year date_time.date.month with
    | .error f => .error f
    | .ok leap_second => .ok (decide (leap_second = 1))

/-- The function `DateTimeAsUTC`. -/
def DateTimeAsUTC (utc : DateTime) : Except Fault ℚ :=
  if hend : utc.time.is_end_of_day = true then
    match hnormalized : utc.normalized_end_of_day with
    | .error f => .error f
    | .ok normalized => DateTimeAsUTC normalized
  else if utc.date.year < 1972 then
    match IsValidStretchyUTC utc with
    | .error f => .error f
    | .ok valid => CHECKING valid (.ok (FromTAI (TimeScale utc + TAIMinusStretchyUTC utc)))
  else
    match IsValidModernUTC utc with
    | .error f => .error f
    | .ok valid =>
      CHECKING valid
        (match ModernUTCMinusTAI utc.date with
          | .error f => .error f
          | .ok utc_minus_tai => .ok (FromTAI (TimeScale utc - utc_minus_tai)))
termination_by (if utc.time.is_end_of_day = true then 1 else 0 : Nat)
decreasing_by
  have htime : normalized.time.is_end_of_day = false := by
    unfold DateTime.normalized_end_of_day CHECKING at hnormalized
    rw [if_pos hend] at hnormalized
    cases hnormalized
    rfl
  rw [if_pos hend, htime]
  decide

/-- The property that UTC increases through the leap second at the end of the day `date`: the
date-time `date`T23:59:60 is valid, and `DateTimeAsUTC` is defined at `date`T23:59:59, at
`date`T23:59:60 and at 00:00:00 on the next day, with one second from each to the next. -/
def increases_through_leap_second (date : Date) : Prop :=
  IsValidModernUTC ⟨date, ⟨23, 59, 60, 0⟩⟩ = .ok true ∧
    ∃ before leap after : ℚ,
      DateTimeAsUTC ⟨date, ⟨23, 59, 59, 0⟩⟩ = .ok before ∧
      DateTimeAsUTC ⟨date, ⟨23, 59, 60, 0⟩⟩ = .ok leap ∧
      DateTimeAsUTC ⟨date.next_day, ⟨0, 0, 0, 0⟩⟩ = .ok after ∧
      leap = before + 1 * Second ∧ after = leap + 1 * Second

end astronomy
/-! # Geometry

`Geometry/Permutation.hpp`: the enumeration `Permutation::CoordinatePermutation`;
`geometry/grassmann_body.hpp`: the products of vectors and bivectors. -/

namespace geometry

namespace Permutation

/-- Conversion of an integer value to `int` (32 bits, two's complement). -/
def to_int (n : Int) : Int := (n + 2147483648) % 4294967296 - 2147483648

/-- The constant `even`. -/
def even : Int := 0

/-- The constant `odd`, the `int` initialised with `0x80000000`. -/
def odd : Int := to_int 0x80000000

/-- The constant `x`. -/
def x : Int := 0

/-- The constant `y`. -/
def y : Int := 1

/-- The constant `z`. -/
def z : Int := 2

/-- The constant `index`. -/
def index : Int := 6

/-- The shift `a << n` of `int`s. -/
def shift_left (a n : Int) : Int := to_int (a * 2 ^ n.toNat)

/-- The enumerator `XYZ`. -/
def XYZ : Int :=
  to_int (even + shift_left x (x * 2) + shift_left y (y * 2) + shift_left z (z * 2) +
    shift_left 0 index)

/-- The enumerator `YZX`. -/
def YZX : Int :=
  to_int (even + shift_left y (x * 2) + shift_left z (y * 2) + shift_left x (z * 2) +
    shift_left 1 index)

/-- The enumerator `ZXY`. -/
def ZXY : Int :=
  to_int (even + shift_left z (x * 2) + shift_left x (y * 2) + shift_left y (z * 2) +
    shift_left 2 index)

/-- The enumerator `XZY`. -/
def XZY : Int :=
  to_int (odd + shift_left x (x * 2) + shift_left z (y * 2) + shift_left y (z * 2) +
    shift_left 3 index)

/-- The enumerator `ZYX`. -/
def ZYX : Int :=
  to_int (odd + shift_left z (x * 2) + shift_left y (y * 2) + shift_left x (z * 2) +
    shift_left 4 index)

/-- The enumerator `YXZ`. -/
def YXZ : Int :=
  to_int (odd + shift_left y (x * 2) + shift_left x (y * 2) + shift_left z (z * 2) +
    shift_left 5 index)

/-- The six enumerators, in the order of their declaration. -/
def enumerators : List Int := [XYZ, YZX, ZXY, XZY, ZYX, YXZ]

/-- The field of `width` bits that starts at bit `low` in the 32-bit representation of
an `int`. -/
def bit_field (value : Int) (low width : Nat) : Int :=
  value % 4294967296 / 2 ^ low % 2 ^ width

/-- The images of `x`, `y` and `z` recorded in an enumerator: the two-bit fields at bits
0-1, 2-3 and 4-5. -/
def images (value : Int) : List Int :=
  [bit_field value 0 2, bit_field value 2 2, bit_field value 4 2]

/-- Whether a list of integers, read as the images of `x, y, z, ...`, has an odd number
of inversions, that is, is an odd permutation. -/
def is_odd_permutation : List Int → Bool
  | [] => false
  | a :: rest => xor (decide ((rest.filter fun b => b < a).length % 2 = 1))
      (is_odd_permutation rest)

end Permutation

/-- Modelled from the spec: the class `R3Element<Scalar>` of `geometry/r3_element.hpp`
(outside the given sources): three coordinates. -/
structure R3Element (R : Type) where
  x : R
  y : R
  z : R

/-- Modelled from the spec: the function `Dot` of `R3Element`, the scalar product. -/
def Dot {R : Type} [CommRing R] (left right : R3Element R) : R :=
  left.x * right.x + left.y * right.y + left.z * right.z

/-- Modelled from the spec: the function `Cross` of `R3Element`, the vector product. -/
def Cross {R : Type} [CommRing R] (left right : R3Element R) : R3Element R :=
  { x := left.y * right.z - left.z * right.y
    y := left.z * right.x - left.x * right.z
    z := left.x * right.y - left.y * right.x }

/-- Modelled from the spec: the product `left * right` of a scalar and an `R3Element`. -/
def R3Element.scale {R : Type} [CommRing R] (left : R) (right : R3Element R) : R3Element R :=
  { x := left * right.x, y := left * right.y, z := left * right.z }

/-- The class `Multivector<Scalar, Frame, 1>`. -/
structure Vector (R : Type) where
  coordinates : R3Element R

/-- The class `Multivector<Scalar, Frame, 2>`. -/
structure Bivector (R : Type) where
  coordinates : R3Element R

/-- The function `InnerProduct(Vector, Vector)`. -/
def InnerProduct {R : Type} [CommRing R] (left right : Vector R) : R :=
  Dot left.coordinates right.coordinates

/-- The operator `operator*(Vector, Bivector)`. -/
def vector_times_bivector {R : Type} [CommRing R] (left : Vector R) (right : Bivector R) :
    Vector R :=
  { coordinates := Cross left.coordinates right.coordinates }

/-- The operator `operator*(double, Multivector)` on vectors. -/
def scalar_times_vector {R : Type} [CommRing R] (left : R) (right : Vector R) : Vector R :=
  { coordinates := R3Element.scale left right.coordinates }

/-- The operator `operator*(double, Multivector)` on bivectors. -/
def scalar_times_bivector {R : Type} [CommRing R] (left : R) (right : Bivector R) :
    Bivector R :=
  { coordinates := R3Element.scale left right.coordinates }

end geometry


/-! # The generator of the journal code (`tools/journal_proto_processor.cpp`) -/

namespace tools

/-- The ways in which the generator aborts: a failed `CHECK` or `CHECK_EQ`, a `LOG(FATAL)`,
and a read of a `std::vector` outside its bounds, which is undefined behaviour. -/
inductive Fatal where
  | check_failed
  | log_fatal
  | out_of_bounds
deriving DecidableEq, Repr

/-- The macro `CHECK` of glog, followed by the rest of the function. -/
def CHECK {α : Type} (condition : Bool) (rest : Except Fatal α) : Except Fatal α :=
  if condition then rest else .error .check_failed

/-- Modelled from the spec: the enumeration `FieldDescriptor::Label` of protobuf. -/
inductive Label where
  | LABEL_OPTIONAL
  | LABEL_REQUIRED
  | LABEL_REPEATED
deriving DecidableEq, Repr

/-- Modelled from the spec: the enumeration `FieldDescriptor::Type` of protobuf. -/
inductive FieldType where
  | TYPE_DOUBLE
  | TYPE_FLOAT
  | TYPE_INT64
  | TYPE_UINT64
  | TYPE_INT32
  | TYPE_FIXED64
  | TYPE_FIXED32
  | TYPE_BOOL
  | TYPE_STRING
  | TYPE_GROUP
  | TYPE_MESSAGE
  | TYPE_BYTES
  | TYPE_UINT32
  | TYPE_ENUM
  | TYPE_SFIXED32
  | TYPE_SFIXED64
  | TYPE_SINT32
  | TYPE_SINT64
deriving DecidableEq, Repr

/-- Modelled from the spec: the options of a field that the generator reads; `none` is an
option for which `HasExtension` is false, `some v` one whose `GetExtension` is `v`. -/
structure FieldOptions where
  size : Option String
  pointer_to : Option String
  is_subject : Option Bool
  is_consumed : Option Bool
  is_consumed_if : Option String
  is_produced : Option Bool
  is_produced_if : Option String
deriving DecidableEq, Repr

/-- Modelled from the spec: the class `FieldDescriptor` of protobuf, with the members that
the generator reads; `message_type` is the name of `message_type()`.  The generator keys its
sets and maps by the address of the descriptor: two descriptors are the same object when
they are equal here, `full_name` telling apart the fields of different messages. -/
structure FieldDescriptor where
  full_name : String
  name : String
  label : Label
  type : FieldType
  message_type : String
  cpp_type_name : String
  options : FieldOptions
deriving DecidableEq, Repr

/-- Modelled from the spec: the class `Descriptor` of protobuf for a message nested in a
method extension (`In`, `Out` or `Return`), with its fields in order. -/
structure Descriptor where
  name : String
  field : List FieldDescriptor
deriving DecidableEq, Repr

/-- Modelled from the spec: the class `Descriptor` of protobuf for a method extension, with its
nested messages in order. -/
structure MethodDescriptor where
  name : String
  nested_type : List Descriptor
deriving DecidableEq, Repr

/-- The constant `kIn`. -/
def kIn : String := "In"

/-- The constant `kReturn`. -/
def kReturn : String := "Return"

/-- The constant `kOut`. -/
def kOut : String := "Out"

/-- The function `Contains`, for a `std::set` of descriptors held as a list. -/
def Contains (container : List FieldDescriptor) (key : FieldDescriptor) : Bool :=
  decide (key ∈ container)

/-- The loop of `Join`: the strings joined so far and the flag `is_first`. -/
def Join_loop (joiner : String) : List String → String × Bool → String × Bool
  | [], state => state
  | vi :: rest, (joined, is_first) =>
    if vi.isEmpty then Join_loop joiner rest (joined, is_first)
    else if is_first then Join_loop joiner rest (vi, false)
    else Join_loop joiner rest (joined ++ (joiner ++ vi), is_first)

/-- The function `Join`, which skips the empty strings. -/
def Join (v : List String) (joiner : String) : String :=
  (Join_loop joiner v ("", true)).1

/-- The entries of the maps `field_cs_marshal_`, `field_cs_type_`, `field_cxx_type_`,
`size_member_name_`, `field_cs_mode_fn_`, `field_cxx_mode_fn_` and `field_cxx_arguments_fn_`
for one field descriptor.  A missing entry of a map of strings reads as the empty string.
The other maps that `ProcessField` fills go into the bodies of `Fill` and `Run`, not into
the parameter and argument lists. -/
structure FieldCode where
  field_cs_marshal : String
  field_cs_type : String
  field_cxx_type : String
  size_member_name : Option String
  field_cs_mode_fn : String → String
  field_cxx_mode_fn : String → String
  field_cxx_arguments_fn : String → List String

/-- The member `ProcessRepeatedMessageField`. -/
def ProcessRepeatedMessageField (descriptor : FieldDescriptor) (code : FieldCode) :
    Except Fatal FieldCode :=
  CHECK descriptor.options.size.isSome
    (.ok { code with
      size_member_name := descriptor.options.size
      field_cs_type := descriptor.message_type ++ "[]"
      field_cxx_type := descriptor.message_type ++ " const*"
      field_cxx_arguments_fn := fun identifier =>
        ["&" ++ identifier ++ "[0]", identifier ++ ".size()"] })

/-- The member `ProcessOptionalInt32Field`. -/
def ProcessOptionalInt32Field (code : FieldCode) : Except Fatal FieldCode :=
  .ok { code with
    field_cs_type := "Boxed<int>"
    field_cs_marshal :=
      "[MarshalAs(UnmanagedType.CustomMarshaler, " ++
      "MarshalTypeRef = typeof(OptionalMarshaler<int>))]"
    field_cxx_type := "int const*"
    field_cxx_arguments_fn := fun identifier => [identifier ++ ".get()"] }

/-- The member `ProcessRequiredFixed64Field`; the deleter and the inserter that it records
go into the body of `Run`. -/
def ProcessRequiredFixed64Field (out_ in_out_ : List FieldDescriptor)
    (descriptor : FieldDescriptor) (code : FieldCode) : Except Fatal FieldCode :=
  let options := descriptor.options
  match options.pointer_to with
  | none => .error .check_failed
  | some pointer_to =>
    CHECK (options.is_subject != some false) <|
    CHECK (!(Contains out_ descriptor && !Contains in_out_ descriptor) ||
        (!options.is_consumed.isSome && !options.is_consumed_if.isSome)) <|
    CHECK (options.is_consumed != some false) <|
    CHECK (!options.is_consumed_if.isSome || !options.is_consumed.isSome) <|
    CHECK (options.is_produced != some false) <|
    CHECK (!options.is_produced_if.isSome || !options.is_produced.isSome) <|
    .ok { code with
      field_cs_type := if options.is_subject.isSome then "this IntPtr" else "IntPtr"
      field_cxx_type := pointer_to ++ "*" }

/-- The member `ProcessRequiredMessageField`. -/
def ProcessRequiredMessageField (descriptor : FieldDescriptor) (code : FieldCode) :
    Except Fatal FieldCode :=
  .ok { code with
    field_cs_type := descriptor.message_type
    field_cxx_type := descriptor.message_type }

/-- The member `ProcessRequiredBoolField`. -/
def ProcessRequiredBoolField (descriptor : FieldDescriptor) (code : FieldCode) :
    Except Fatal FieldCode :=
  .ok { code with field_cs_type := "bool", field_cxx_type := descriptor.cpp_type_name }

/-- The member `ProcessRequiredDoubleField`. -/
def ProcessRequiredDoubleField (descriptor : FieldDescriptor) (code : FieldCode) :
    Except Fatal FieldCode :=
  .ok { code with field_cs_type := "double", field_cxx_type := descriptor.cpp_type_name }

/-- The member `ProcessRequiredInt32Field`. -/
def ProcessRequiredInt32Field (code : FieldCode) : Except Fatal FieldCode :=
  .ok { code with field_cs_type := "int", field_cxx_type := "int" }

/-- The member `ProcessRequiredUint32Field`. -/
def ProcessRequiredUint32Field (code : FieldCode) : Except Fatal FieldCode :=
  .ok { code with field_cs_type := "uint", field_cxx_type := "uint32_t" }

/-- The member `ProcessSingleStringField`. -/
def ProcessSingleStringField (descriptor : FieldDescriptor) (code : FieldCode) :
    Except Fatal FieldCode :=
  let code := { code with
    field_cs_marshal := "[MarshalAs(UnmanagedType.LPStr)]"
    field_cs_type := "String"
    field_cxx_type := "char const*" }
  match descriptor.options.size with
  | some size =>
    .ok { code with
      size_member_name := some size
      field_cxx_arguments_fn := fun identifier =>
        [identifier ++ "->c_str()", identifier ++ "->size()"] }
  | none => .ok code

/-- The member `ProcessOptionalField`. -/
def ProcessOptionalField (descriptor : FieldDescriptor) (code : FieldCode) :
    Except Fatal FieldCode :=
  match descriptor.type with
  | .TYPE_INT32 => ProcessOptionalInt32Field code
  | .TYPE_STRING => ProcessSingleStringField descriptor code
  | _ => .error .log_fatal

/-- The member `ProcessRepeatedField`. -/
def ProcessRepeatedField (descriptor : FieldDescriptor) (code : FieldCode) :
    Except Fatal FieldCode :=
  match descriptor.type with
  | .TYPE_MESSAGE => ProcessRepeatedMessageField descriptor code
  | _ => .error .log_fatal

/-- The end of `ProcessRequiredField`: the extra level of indirection of the in-out and out
fields. -/
def indirection (out_ in_out_ : List FieldDescriptor) (descriptor : FieldDescriptor)
    (code : FieldCode) : FieldCode :=
  if Contains in_out_ descriptor || Contains out_ descriptor then
    { code with
      field_cxx_arguments_fn := fun identifier => ["&" ++ identifier]
      field_cs_mode_fn :=
        if Contains in_out_ descriptor then fun type => "ref " ++ type
        else fun type => "out " ++ type
      field_cxx_mode_fn := fun type => type ++ "*" }
  else code

/-- The member `ProcessRequiredField`. -/
def ProcessRequiredField (out_ in_out_ : List FieldDescriptor) (descriptor : FieldDescriptor)
    (code : FieldCode) : Except Fatal FieldCode :=
  let processed : Except Fatal FieldCode :=
    match descriptor.type with
    | .TYPE_BOOL => ProcessRequiredBoolField descriptor code
    | .TYPE_DOUBLE => ProcessRequiredDoubleField descriptor code
    | .TYPE_FIXED64 => ProcessRequiredFixed64Field out_ in_out_ descriptor code
    | .TYPE_INT32 => ProcessRequiredInt32Field code
    | .TYPE_MESSAGE => ProcessRequiredMessageField descriptor code
    | .TYPE_STRING => ProcessSingleStringField descriptor code
    | .TYPE_UINT32 => ProcessRequiredUint32Field code
    | _ => .error .log_fatal
  match processed with
  | .error fatal => .error fatal
  | .ok code => .ok (indirection out_ in_out_ descriptor code)

/-- The member `ProcessField`, for the sets `out_` and `in_out_` of the processor.  The maps
are keyed by the descriptor, and what a call leaves in them for a descriptor is what the
next call for that descriptor writes again: the entries are built afresh. -/
def ProcessField (out_ in_out_ : List FieldDescriptor) (descriptor : FieldDescriptor) :
    Except Fatal FieldCode :=
  let code : FieldCode :=
    { field_cs_marshal := ""
      field_cs_type := ""
      field_cxx_type := ""
      size_member_name := none
      field_cs_mode_fn := fun type => type
      field_cxx_mode_fn := fun type => type
      field_cxx_arguments_fn := fun identifier => [identifier] }
  match descriptor.label with
  | .LABEL_OPTIONAL => ProcessOptionalField descriptor code
  | .LABEL_REPEATED => ProcessRepeatedField descriptor code
  | .LABEL_REQUIRED => ProcessRequiredField out_ in_out_ descriptor code

/-- The entries of the maps `cs_interface_parameters_`, `cxx_interface_parameters_` and
`cxx_run_arguments_` for a nested descriptor, and the local vectors of the same names in
`ProcessMethodExtension`. -/
structure Parameters where
  cs_interface_parameters : List String
  cxx_interface_parameters : List String
  cxx_run_arguments : List String
deriving DecidableEq, Repr

/-- The three vectors after `clear()`. -/
def Parameters.empty : Parameters :=
  { cs_interface_parameters := [], cxx_interface_parameters := [], cxx_run_arguments := [] }

/-- The three vectors, each followed by the vector of the same name of `more`
(`std::copy` with a `std::back_inserter`). -/
def Parameters.append (parameters more : Parameters) : Parameters :=
  { cs_interface_parameters := parameters.cs_interface_parameters ++ more.cs_interface_parameters
    cxx_interface_parameters :=
      parameters.cxx_interface_parameters ++ more.cxx_interface_parameters
    cxx_run_arguments := parameters.cxx_run_arguments ++ more.cxx_run_arguments }

/-- What the body of the loop of `ProcessInOut` pushes for one field under
`must_generate_code`: the arguments of `Run`, then the C# and the C++ parameters, each followed
by the parameter for the size if the field has one. -/
def field_parameters (code : FieldCode) (field_descriptor : FieldDescriptor) : Parameters :=
  { cxx_run_arguments := code.field_cxx_arguments_fn field_descriptor.name
    cs_interface_parameters :=
      ("  " ++ Join [code.field_cs_marshal, code.field_cs_mode_fn code.field_cs_type] " " ++
          " " ++ field_descriptor.name) ::
        (match code.size_member_name with
          | some size => ["  int " ++ size]
          | none => [])
    cxx_interface_parameters :=
      (code.field_cxx_mode_fn code.field_cxx_type ++ " const " ++ field_descriptor.name) ::
        (match code.size_member_name with
          | some size => ["int const " ++ size]
          | none => []) }

/-- The loop of `ProcessInOut` over the fields of the message called `name`. -/
def ProcessInOut_loop (out_ in_out_ : List FieldDescriptor) (name : String) :
    List FieldDescriptor → Parameters → Except Fatal Parameters
  | [], parameters => .ok parameters
  | field_descriptor :: rest, parameters =>
    match ProcessField out_ in_out_ field_descriptor with
    | .error fatal => .error fatal
    | .ok code =>
      let must_generate_code := name == kIn || !Contains in_out_ field_descriptor
      ProcessInOut_loop out_ in_out_ name rest
        (if must_generate_code then parameters.append (field_parameters code field_descriptor)
          else parameters)

/-- The member `ProcessInOut`, as far as the parameter and argument lists go.  When the
call returns, it has pushed all the fields of `descriptor`, in order, to
`field_descriptors`: the caller does so here. -/
def ProcessInOut (out_ in_out_ : List FieldDescriptor) (descriptor : Descriptor) :
    Except Fatal Parameters :=
  ProcessInOut_loop out_ in_out_ descriptor.name descriptor.field Parameters.empty

/-- The member `ProcessReturn`, as far as it can abort. -/
def ProcessReturn (out_ in_out_ : List FieldDescriptor) (descriptor : Descriptor) :
    Except Fatal Unit :=
  CHECK (descriptor.field.length == 1) <|
  match descriptor.field[0]? with
  | none => .error .out_of_bounds
  | some field_descriptor =>
    CHECK (field_descriptor.label == .LABEL_REQUIRED) <|
    match ProcessField out_ in_out_ field_descriptor with
    | .error fatal => .error fatal
    | .ok _ => .ok ()

/-- The locals `has_in`, `has_out`, `has_return` and `field_descriptors` of
`ProcessMethodExtension`, and the member `out_`, during the first pass. -/
structure FirstPass where
  has_in : Bool
  has_out : Bool
  has_return : Bool
  field_descriptors : List FieldDescriptor
  out_ : List FieldDescriptor
deriving DecidableEq, Repr

/-- The first pass of `ProcessMethodExtension` over the nested messages. -/
def first_pass (in_out_ : List FieldDescriptor) : List Descriptor → FirstPass →
    Except Fatal FirstPass
  | [], state => .ok state
  | nested_descriptor :: rest, state =>
    if nested_descriptor.name = kIn then
      match ProcessInOut state.out_ in_out_ nested_descriptor with
      | .error fatal => .error fatal
      | .ok _ =>
        first_pass in_out_ rest { state with
          has_in := true
          field_descriptors := state.field_descriptors ++ nested_descriptor.field }
    else if nested_descriptor.name = kOut then
      match ProcessInOut state.out_ in_out_ nested_descriptor with
      | .error fatal => .error fatal
      | .ok _ =>
        first_pass in_out_ rest { state with
          has_out := true
          out_ := state.out_ ∪ nested_descriptor.field
          field_descriptors := state.field_descriptors ++ nested_descriptor.field }
    else if nested_descriptor.name = kReturn then
      first_pass in_out_ rest { state with has_return := true }
    else .error .log_fatal

/-- The call of `std::sort` by name.  Names are compared as `std::string` compares them,
character by character.  The order in which `std::sort` leaves fields of the same name is
unspecified; here they keep their order. -/
def sort_by_name (field_descriptors : List FieldDescriptor) : List FieldDescriptor :=
  field_descriptors.insertionSort (fun left right => left.name ≤ right.name)

/-- The loop that marks the in-out fields, from index `i` on.  The counter is compared
with `bound`, which is `field_descriptors.size() - 1` in `std::size_t`. -/
def mark_in_out (field_descriptors : List FieldDescriptor) (bound : Nat) (i : Nat)
    (in_out_ : List FieldDescriptor) : Except Fatal (List FieldDescriptor) :=
  if i < bound then
    match field_descriptors[i]?, field_descriptors[i + 1]? with
    | some left, some right =>
      mark_in_out field_descriptors bound (i + 1)
        (if left.name = right.name then (in_out_.insert left).insert right else in_out_)
    | _, _ => .error .out_of_bounds
  else .ok in_out_
termination_by bound - i

/-- The second pass of `ProcessMethodExtension` over the nested messages; the branches for
`In` and for `Out` differ by the text of `Fill` only. -/
def second_pass (out_ in_out_ : List FieldDescriptor) : List Descriptor → Parameters →
    Except Fatal Parameters
  | [], parameters => .ok parameters
  | nested_descriptor :: rest, parameters =>
    if nested_descriptor.name = kIn ∨ nested_descriptor.name = kOut then
      match ProcessInOut out_ in_out_ nested_descriptor with
      | .error fatal => .error fatal
      | .ok generated => second_pass out_ in_out_ rest (parameters.append generated)
    else if nested_descriptor.name = kReturn then
      match ProcessReturn out_ in_out_ nested_descriptor with
      | .error fatal => .error fatal
      | .ok _ => second_pass out_ in_out_ rest parameters
    else second_pass out_ in_out_ rest parameters

/-- The members `out_` and `in_out_` of `JournalProtoProcessor`. -/
structure Processor where
  out_ : List FieldDescriptor
  in_out_ : List FieldDescriptor
deriving DecidableEq, Repr

/-- The member `ProcessMethodExtension`: the processor after the call, and the vectors
`cs_interface_parameters`, `cxx_interface_parameters` and `cxx_run_arguments` that the
declarations of the method and the call in `Run` are joined from. -/
def ProcessMethodExtension (processor : Processor) (descriptor : MethodDescriptor) :
    Except Fatal (Processor × Parameters) :=
  match first_pass processor.in_out_ descriptor.nested_type
      { has_in := false, has_out := false, has_return := false, field_descriptors := [],
        out_ := processor.out_ } with
  | .error fatal => .error fatal
  | .ok first =>
    let marked : Except Fatal (List FieldDescriptor) :=
      if first.has_in && first.has_out then
        mark_in_out (sort_by_name first.field_descriptors)
          ((first.field_descriptors.length + 2 ^ 64 - 1) % 2 ^ 64) 0 processor.in_out_
      else .ok processor.in_out_
    match marked with
    | .error fatal => .error fatal
    | .ok in_out_ =>
      match second_pass first.out_ in_out_ descriptor.nested_type Parameters.empty with
      | .error fatal => .error fatal
      | .ok parameters => .ok ({ out_ := first.out_, in_out_ := in_out_ }, parameters)

/-! ## Notions that the properties of the generator are stated with -/

/-- No option. -/
def no_options : FieldOptions :=
  { size := none, pointer_to := none, is_subject := none, is_consumed := none,
    is_consumed_if := none, is_produced := none, is_produced_if := none }

/-- The field `plugin` of `Sample.In`: a pointer, consumed by the call. -/
def sample_in_plugin : FieldDescriptor :=
  { full_name := "principia.serialization.Sample.In.plugin", name := "plugin",
    label := .LABEL_REQUIRED, type := .TYPE_FIXED64, message_type := "",
    cpp_type_name := "uint64",
    options := { no_options with pointer_to := some "Plugin", is_consumed := some true } }

/-- The field `index` of `Sample.In`. -/
def sample_in_index : FieldDescriptor :=
  { full_name := "principia.serialization.Sample.In.index", name := "index",
    label := .LABEL_REQUIRED, type := .TYPE_INT32, message_type := "",
    cpp_type_name := "int32", options := no_options }

/-- The field `plugin` of `Sample.Out`. -/
def sample_out_plugin : FieldDescriptor :=
  { full_name := "principia.serialization.Sample.Out.plugin", name := "plugin",
    label := .LABEL_REQUIRED, type := .TYPE_FIXED64, message_type := "",
    cpp_type_name := "uint64", options := { no_options with pointer_to := some "Plugin" } }

/-- The field `value` of `Sample.Out`. -/
def sample_out_value : FieldDescriptor :=
  { full_name := "principia.serialization.Sample.Out.value", name := "value",
    label := .LABEL_REQUIRED, type := .TYPE_DOUBLE, message_type := "",
    cpp_type_name := "double", options := no_options }

/-- The field `result` of `Sample.Return`. -/
def sample_return_result : FieldDescriptor :=
  { full_name := "principia.serialization.Sample.Return.result", name := "result",
    label := .LABEL_REQUIRED, type := .TYPE_BOOL, message_type := "",
    cpp_type_name := "bool", options := no_options }

/-- The message `Sample.In`. -/
def sample_in : Descriptor := { name := "In", field := [sample_in_plugin, sample_in_index] }

/-- The message `Sample.Out`. -/
def sample_out : Descriptor := { name := "Out", field := [sample_out_plugin, sample_out_value] }

/-- The message `Sample.Return`. -/
def sample_return : Descriptor := { name := "Return", field := [sample_return_result] }

/-- A method extension with an in-out parameter `plugin`, an in parameter `index`, an out
parameter `value` and a result. -/
def sample_method : MethodDescriptor :=
  { name := "Sample", nested_type := [sample_in, sample_out, sample_return] }

/-- The processor before any message. -/
def new_processor : Processor := { out_ := [], in_out_ := [] }

end tools
namespace integrators

/-! ## Auxiliary facts -/

/-- The startup callback keeps the window strictly below `order_ - 1` entries. -/
theorem startup_append_state_length_lt {P : Type} (integ : SymmetricLinearMultistepIntegrator P)
    (decls : Declarations P) (previous_steps : List (Step P)) (state : SystemState P)
    (h : previous_steps.length < size_t ((integ.order_ : Int) - 1)) :
    (startup_append_state integ decls previous_steps state).length <
      size_t ((integ.order_ : Int) - 1) := by
  unfold startup_append_state
  simp only []
  split
  · rename_i heq
    simp only [List.length_tail, List.length_append, List.length_singleton] at heq ⊢
    omega
  · rename_i hne
    simp only [List.length_append, List.length_singleton] at hne ⊢
    omega

/-- However many states the startup integrator publishes, the window stays strictly below
`order_ - 1` entries. -/
theorem startup_window_length_lt {P : Type} (integ : SymmetricLinearMultistepIntegrator P)
    (decls : Declarations P) (states : List (SystemState P)) :
    ∀ previous_steps : List (Step P),
      previous_steps.length < size_t ((integ.order_ : Int) - 1) →
      (states.foldl (startup_append_state integ decls) previous_steps).length <
        size_t ((integ.order_ : Int) - 1) := by
  induction states with
  | nil => intro previous_steps h; simpa using h
  | cons state rest ih =>
    intro previous_steps h
    rw [List.foldl_cons]
    exact ih _ (startup_append_state_length_lt integ decls previous_steps state h)

/-- What `StartupSolve` does: it never returns.  It stops at one of its checks on the
size of the window, at `CHECK_EQ(previous_steps.size(), order_ - 1)` when it was entered
with a window that is not empty and is shorter than `order_ - 1`, having published
nothing to the caller and having left the main loop untouched. -/
theorem StartupSolve_fatal {P : Type} (integ : SymmetricLinearMultistepIntegrator P)
    (decls : Declarations P) (t_final : ℚ) (run : Run P) :
    ∃ f run', StartupSolve integ decls t_final run = .fatal f run' ∧
      f.is_window_size_check = true ∧
      (run.inst.previous_steps ≠ [] →
        run.inst.previous_steps.length < size_t ((integ.order_ : Int) - 1) →
        f = .check_size_eq ∧
        run'.inst.previous_steps.length < size_t ((integ.order_ : Int) - 1)) ∧
      run'.published = run.published ∧ run'.ode_calls = run.ode_calls ∧
      run'.appended = run.appended := by
  unfold StartupSolve
  simp only []
  cases hlast : run.inst.previous_steps.getLast? with
  | none =>
    refine ⟨.check_not_empty, run, rfl, rfl, ?_, rfl, rfl, rfl⟩
    intro hne
    exact absurd (List.getLast?_eq_none_iff.mp hlast) hne
  | some back =>
    simp only []
    by_cases hlt : run.inst.previous_steps.length < size_t ((integ.order_ : Int) - 1)
    · have hlen := startup_window_length_lt integ decls
        (integ.startup_integrator_.Solve run.inst.equation (decls.state_of_step back)
          run.inst.step
          (min ((decls.state_of_step back).time.value +
              (size_t ((integ.order_ : Int) - 1 - run.inst.previous_steps.length) : ℚ) *
                run.inst.step) t_final))
        run.inst.previous_steps hlt
      rw [if_neg (not_not.mpr hlt), if_neg (Nat.ne_of_lt hlen)]
      exact ⟨_, _, rfl, rfl, fun _ _ => ⟨rfl, hlen⟩, rfl, rfl, rfl⟩
    · rw [if_pos hlt]
      exact ⟨_, _, rfl, rfl, fun _ h => absurd h hlt, rfl, rfl, rfl⟩

/-- A reverse iterator that was decremented from `rbegin()` designates no element. -/
theorem deref_reverse_neg {T : Type} (xs : List T) (r : Int) (h : r < 0) :
    deref_reverse xs r = .error .iterator_out_of_range := by
  unfold deref_reverse
  rw [if_neg (by omega)]

/-- The body of the loop on `j` fails once `back_it` has been decremented from `rbegin()`:
it reads through an iterator that designates no element. -/
theorem stencil_body_error {P : Type} [AddCommGroup P] [Module ℚ P]
    (integ : SymmetricLinearMultistepIntegrator P) (previous_steps : List (Step P))
    (dimension j : Nat) (s : Stencil P) (h : s.back_it < 0) :
    stencil_body integ previous_steps dimension j s = .error .iterator_out_of_range := by
  unfold stencil_body
  cases hfront : deref_forward previous_steps s.front_it with
  | error f =>
    unfold deref_forward at hfront
    split at hfront
    · cases hfront
    · cases hfront; rfl
  | ok front =>
    simp [bind, Except.bind, deref_reverse_neg previous_steps s.back_it h]

/-- A failure of `vector_get` is not a `CHECK`. -/
theorem vector_get_error {T : Type} (v : List T) (d : Nat) (f : Failure)
    (h : vector_get v d = .error f) : f.is_check = false := by
  unfold vector_get at h
  split at h
  · cases h
  · cases h; rfl

/-- A failure of `vector_set` is not a `CHECK`. -/
theorem vector_set_error {T : Type} (v : List T) (d : Nat) (x : T) (f : Failure)
    (h : vector_set v d x = .error f) : f.is_check = false := by
  unfold vector_set at h
  split at h
  · cases h
  · cases h; rfl

/-- A loop fails only with a failure of its body. -/
theorem for_loop_error {σ : Type} (body : Nat → σ → Except Failure σ) (good : Failure → Prop)
    (hbody : ∀ i s f, body i s = .error f → good f) :
    ∀ count first s f, for_loop body first count s = .error f → good f := by
  intro count
  induction count with
  | zero => intro first s f h; simp [for_loop] at h
  | succ n ih =>
    intro first s f h
    unfold for_loop at h
    cases hb : body first s with
    | error g =>
      rw [hb] at h
      cases h
      exact hbody first s _ hb
    | ok s' =>
      rw [hb] at h
      exact ih _ _ _ h

/-- An execution of the body of the loop on `j` that succeeds has decremented `back_it`. -/
theorem stencil_body_back_it {P : Type} [AddCommGroup P] [Module ℚ P]
    (integ : SymmetricLinearMultistepIntegrator P) (previous_steps : List (Step P))
    (dimension j : Nat) (s s' : Stencil P)
    (h : stencil_body integ previous_steps dimension j s = .ok s') :
    s'.back_it = s.back_it - 1 := by
  unfold stencil_body at h
  simp only [bind, Except.bind, pure, Except.pure] at h
  split at h
  · cases h
  · split at h
    · cases h
    · split at h
      · cases h
      · split at h
        · cases h
        · split at h
          · cases h
          · cases h; rfl

/-- A failure of the body of the loop on `d` inside the loop on `j` is never a `CHECK`. -/
theorem stencil_dof_error {P : Type} [AddCommGroup P] [Module ℚ P]
    (αj βj_numerator : ℚ) (qj qk_minus_j aj ak_minus_j : List P) (d : Nat) (s : Sums P)
    (f : Failure)
    (h : stencil_dof αj βj_numerator qj qk_minus_j aj ak_minus_j d s = .error f) :
    f.is_check = false := by
  unfold stencil_dof at h
  simp only [bind, Except.bind, pure, Except.pure] at h
  split at h
  · rename_i h1; cases h; exact vector_get_error _ _ _ h1
  · split at h
    · rename_i h1; cases h; exact vector_get_error _ _ _ h1
    · split at h
      · rename_i h1; cases h; exact vector_get_error _ _ _ h1
      · split at h
        · rename_i h1; cases h; exact vector_set_error _ _ _ _ h1
        · split at h
          · rename_i h1; cases h; exact vector_get_error _ _ _ h1
          · split at h
            · rename_i h1; cases h; exact vector_get_error _ _ _ h1
            · split at h
              · rename_i h1; cases h; exact vector_get_error _ _ _ h1
              · split at h
                · rename_i h1; cases h; exact vector_set_error _ _ _ _ h1
                · cases h

/-- A failure of the body of the loop on `j` is never a `CHECK`. -/
theorem stencil_body_error_not_check {P : Type} [AddCommGroup P] [Module ℚ P]
    (integ : SymmetricLinearMultistepIntegrator P) (previous_steps : List (Step P))
    (dimension j : Nat) (s : Stencil P) (f : Failure)
    (h : stencil_body integ previous_steps dimension j s = .error f) :
    f.is_check = false := by
  unfold stencil_body at h
  simp only [bind, Except.bind, pure, Except.pure] at h
  split at h
  · rename_i h1
    cases h
    unfold deref_forward at h1
    split at h1
    · cases h1
    · cases h1; rfl
  · split at h
    · rename_i h1
      cases h
      unfold deref_reverse at h1
      split at h1
      · split at h1
        · cases h1
        · cases h1; rfl
      · cases h1; rfl
    · split at h
      · rename_i h1; cases h; exact vector_get_error _ _ _ h1
      · split at h
        · rename_i h1; cases h; exact vector_get_error _ _ _ h1
        · split at h
          · rename_i h1
            cases h
            exact for_loop_error _ (fun f => f.is_check = false)
              (fun i s f hf => stencil_dof_error _ _ _ _ _ _ i s f hf) _ _ _ _ h1
          · cases h

/-- With `order_` at least 2 the loop on `j` always fails: at `j = 1` at the latest it
reads through `back_it`, which `--back_it` moved off the container. -/
theorem stencil_loop_error {P : Type} [AddCommGroup P] [Module ℚ P]
    (integ : SymmetricLinearMultistepIntegrator P) (previous_steps : List (Step P))
    (dimension : Nat) (sums : Sums P) (horder : 2 ≤ integ.order_) :
    ∃ f, for_loop (stencil_body integ previous_steps dimension) 0 (integ.order_ / 2 + 1)
        { front_it := 0, back_it := 0, sums := sums } = .error f ∧ f.is_check = false ∧
      ((∃ s1, stencil_body integ previous_steps dimension 0
          { front_it := 0, back_it := 0, sums := sums } = .ok s1) →
        f = .iterator_out_of_range) := by
  obtain ⟨n, hn⟩ : ∃ n, integ.order_ / 2 + 1 = n + 2 := ⟨integ.order_ / 2 - 1, by omega⟩
  rw [hn]
  unfold for_loop
  cases h0 : stencil_body integ previous_steps dimension 0
      { front_it := 0, back_it := 0, sums := sums } with
  | error f =>
    refine ⟨f, rfl, stencil_body_error_not_check _ _ _ _ _ _ h0, ?_⟩
    rintro ⟨s1, hs1⟩
    cases hs1
  | ok s1 =>
    have hback : s1.back_it < 0 := by
      have := stencil_body_back_it _ _ _ _ _ _ h0
      simp only [] at this
      omega
    have hf := stencil_body_error integ previous_steps dimension (0 + 1) s1 hback
    refine ⟨.iterator_out_of_range, ?_, rfl, fun _ => rfl⟩
    simp only []
    unfold for_loop
    rw [hf]

/-- With `order_` at least 2 no iteration of the main loop completes: it fails in the loop
on `j`, before the window is touched; when the pass `j = 0` succeeds, the failure is the
read through `back_it` at `j = 1`. -/
theorem iteration_error {P : Type} [AddCommGroup P] [Module ℚ P]
    (integ : SymmetricLinearMultistepIntegrator P) (run : Run P) (loc : Locals P)
    (dimension : Nat) (horder : 2 ≤ integ.order_) :
    ∃ f, iteration integ run loc dimension = .error (f, run) ∧ f.is_check = false ∧
      ((∃ s1, stencil_body integ run.inst.previous_steps dimension 0
          { front_it := 0, back_it := 0, sums := loc.sums } = .ok s1) →
        f = .iterator_out_of_range) := by
  obtain ⟨f, hf, hcheck, hfirst⟩ :=
    stencil_loop_error integ run.inst.previous_steps dimension loc.sums horder
  refine ⟨f, ?_, hcheck, hfirst⟩
  unfold iteration
  simp only []
  rw [hf]

/-- With `order_` at least 2 the main loop fails in its first iteration when a step is due. -/
theorem main_loop_due {P : Type} [AddCommGroup P] [Module ℚ P]
    (integ : SymmetricLinearMultistepIntegrator P) (t_final : ℚ) (dimension fuel : Nat)
    (run : Run P) (loc : Locals P) (referent : Step P) (horder : 2 ≤ integ.order_)
    (href : run.inst.previous_steps[loc.t]? = some referent)
    (hdue : run.inst.step ≤ (t_final - referent.time.value) - referent.time.error) :
    ∃ f, main_loop integ t_final dimension (fuel + 1) run loc = .fatal f run ∧
      f.is_check = false ∧
      ((∃ s1, stencil_body integ run.inst.previous_steps dimension 0
          { front_it := 0, back_it := 0, sums := loc.sums } = .ok s1) →
        f = .iterator_out_of_range) := by
  obtain ⟨f, hf, hcheck, hfirst⟩ := iteration_error integ run loc dimension horder
  refine ⟨f, ?_, hcheck, hfirst⟩
  simp [main_loop, loop_condition, href, hdue, hf]

/-- On a full window with a positive step and `order_` at least 2, `Solve` fails in the
first iteration of its main loop when a step is due, leaving the run as it was. -/
theorem Solve_due {P : Type} [AddCommGroup P] [Module ℚ P]
    (integ : SymmetricLinearMultistepIntegrator P) (decls : Declarations P) (fuel : Nat)
    (t_final : ℚ) (run : Run P) (back : Step P) (horder : 2 ≤ integ.order_)
    (hfull : ¬ run.inst.previous_steps.length < size_t ((integ.order_ : Int) - 1))
    (hback : run.inst.previous_steps.getLast? = some back)
    (hstep : 0 < run.inst.step)
    (hdue : run.inst.step ≤ (t_final - back.time.value) - back.time.error) :
    ∃ f, Solve integ decls (fuel + 1) t_final run = .fatal f run ∧ f.is_check = false ∧
      ((∃ s1, stencil_body integ run.inst.previous_steps back.displacements.length 0
          { front_it := 0, back_it := 0,
            sums := { sum_minus_αj_qj :=
                        List.replicate back.displacements.length DoublePrecision.default,
                      sum_βj_numerator_aj := List.replicate back.displacements.length 0 } } =
            .ok s1) →
        f = .iterator_out_of_range) := by
  unfold Solve
  simp only [if_neg hfull, hback, not_not.mpr hstep, if_false]
  exact main_loop_due integ t_final _ fuel run _ back horder
    (by simpa using (List.getLast?_eq_getElem? run.inst.previous_steps).symm.trans hback) hdue

/-- A check of `StartupSolve` on the size of the window is a `CHECK`. -/
theorem is_check_of_is_window_size_check (f : Failure) (h : f.is_window_size_check = true) :
    f.is_check = true := by
  cases f <;> simp_all [Failure.is_window_size_check, Failure.is_check]

/-- An iteration of the main loop that fails has neither evaluated the equation nor
published a state. -/
theorem iteration_error_log {P : Type} [AddCommGroup P] [Module ℚ P]
    (integ : SymmetricLinearMultistepIntegrator P) (run run' : Run P) (loc : Locals P)
    (dimension : Nat) (f : Failure)
    (h : iteration integ run loc dimension = .error (f, run')) :
    run'.published = run.published ∧ run'.ode_calls = run.ode_calls := by
  unfold iteration at h
  simp only [] at h
  repeat' split at h
  all_goals first
    | (injection h with h; injection h with hf hrun; subst hrun; exact ⟨rfl, rfl⟩)
    | cases h

/-- An iteration of the main loop that completes has found `ɑ[0]` equal to 1. -/
theorem iteration_ok_normalized {P : Type} [AddCommGroup P] [Module ℚ P]
    (integ : SymmetricLinearMultistepIntegrator P) (run : Run P) (loc : Locals P)
    (dimension : Nat) (result : Run P × Locals P)
    (h : iteration integ run loc dimension = .ok result) : integ.α_[0]? = some 1 := by
  unfold iteration at h
  simp only [] at h
  repeat' split at h
  all_goals try cases h
  rename_i αk hαk hone _ _ _
  have hone : αk = 1 := not_not.mp hone
  unfold vector_get at hαk
  split at hαk
  · rename_i x hx
    cases hαk
    rw [hx, hone]
  · cases hαk

/-- With a leading coefficient other than 1 no iteration of the main loop completes, and
the failed iteration has neither evaluated the equation nor published a state. -/
theorem iteration_unnormalized {P : Type} [AddCommGroup P] [Module ℚ P]
    (integ : SymmetricLinearMultistepIntegrator P) (run : Run P) (loc : Locals P)
    (dimension : Nat) (hα : integ.α_[0]? ≠ some 1) :
    ∃ f run', iteration integ run loc dimension = .error (f, run') ∧
      run'.published = run.published ∧ run'.ode_calls = run.ode_calls := by
  cases h : iteration integ run loc dimension with
  | ok result => exact absurd (iteration_ok_normalized integ run loc dimension result h) hα
  | error e =>
    obtain ⟨f, run'⟩ := e
    exact ⟨f, run', rfl, iteration_error_log integ run run' loc dimension f h⟩

/-- On the sample window, with the coefficients of `Quinlan1999Order8A`, a call of `Solve`
for which a step is due stops in its first iteration, on the read through `back_it`. -/
theorem free_window_due (fuel : Nat) (t_final : ℚ) (h : 7 ≤ t_final) :
    Solve (Quinlan1999Order8A free_flight_startup) sample_declarations (fuel + 1) t_final
        (free_run 1 free_window) =
      .fatal .iterator_out_of_range (free_run 1 free_window) := by
  obtain ⟨f, hf, -, hfirst⟩ :=
    Solve_due (Quinlan1999Order8A free_flight_startup) sample_declarations fuel t_final
      (free_run 1 free_window) (free_step 6) (by decide) (by decide) rfl
      (by norm_num [free_run])
      (by norm_num [free_run, free_step]; linarith)
  rw [hfirst ⟨_, rfl⟩] at hf
  exact hf

/-- C1 (resumability).  `Quinlan1999Order8A`, step `1`, `t1 = 7 < t2 = 8`.  The call
`Solve(t1)` that opens the two-call sequence does not return: on an instance holding the
one step at time `0` it stops at the final check of `StartupSolve`, with six steps in the
window; on a full window (times `0..6`) it stops in its first main-loop step, on the read
through `back_it`.  So does the single call `Solve(t2)`.  No final state is reached. -/
theorem resumability_sample_stops :
    Solve (Quinlan1999Order8A free_flight_startup) sample_declarations 8 7
        (free_run 1 [free_step 0]) =
      .fatal .check_size_eq
        (free_run 1
          [free_step 1, free_step 2, free_step 3, free_step 4, free_step 5, free_step 6]) ∧
    Solve (Quinlan1999Order8A free_flight_startup) sample_declarations 8 7
        (free_run 1 free_window) =
      .fatal .iterator_out_of_range (free_run 1 free_window) ∧
    Solve (Quinlan1999Order8A free_flight_startup) sample_declarations 8 8
        (free_run 1 free_window) =
      .fatal .iterator_out_of_range (free_run 1 free_window) := by
  refine ⟨?_, free_window_due 7 7 (by norm_num), free_window_due 7 8 (by norm_num)⟩
  simp [Solve, StartupSolve, free_run, free_step, Quinlan1999Order8A, size_t,
    free_flight_startup, sample_declarations, List.range, List.range.loop,
    startup_append_state]
  norm_num

/-- C2 (zero-acceleration exactness).  Free motion from the origin with velocity `(1, 0)`
and step `1`, window on the line `q(t) = (t, 0)` at times `0..6`, `Quinlan1999Order8A`:
the call that should publish the position `(7, 0)` of step number 7 publishes nothing and
stops on the read through `back_it`. -/
theorem free_motion_publishes_nothing :
    ∃ run', Solve (Quinlan1999Order8A free_flight_startup) sample_declarations 1 7
        (free_run 1 free_window) = .fatal .iterator_out_of_range run' ∧
      run'.published = [] :=
  ⟨free_run 1 free_window, free_window_due 0 7 (by norm_num), rfl⟩

/-- C3 (step count).  On the sample instance, whose newest time is `6`, with step `1` and
`t_final = 14`, eight steps are due; `Solve` takes none: it stops in the first one,
having appended no step, evaluated the equation zero times and published zero states. -/
theorem step_count_sample_is_zero :
    ⌊((14 : ℚ) - 6) / 1⌋₊ = 8 ∧
    ∃ run', Solve (Quinlan1999Order8A free_flight_startup) sample_declarations 9 14
        (free_run 1 free_window) = .fatal .iterator_out_of_range run' ∧
      run'.appended = 0 ∧ run'.ode_calls.length = 0 ∧ run'.published.length = 0 :=
  ⟨by norm_num, free_run 1 free_window, free_window_due 8 14 (by norm_num), rfl, rfl, rfl⟩

/-! ## Time reached on return -/

/-- C5 (startup completeness).  `Quinlan1999Order8A` (order 8), a window holding the one
step at time `0`, step `1`, `t_final = 100`, and a startup integrator that publishes the six
states at times `1, ..., 6`: `StartupSolve` ends with six steps in the window, not seven
(the callback drops the oldest step when the seventh arrives), and its final
`CHECK_EQ(previous_steps.size(), order_ - 1)` fails. -/
theorem startup_leaves_six_steps :
    StartupSolve (Quinlan1999Order8A free_flight_startup) sample_declarations 100
        (free_run 1 [free_step 0]) =
      .fatal .check_size_eq
        (free_run 1
          [free_step 1, free_step 2, free_step 3, free_step 4, free_step 5, free_step 6]) := by
  simp [StartupSolve, free_run, free_step, Quinlan1999Order8A, size_t, free_flight_startup,
    sample_declarations, List.range, List.range.loop, startup_append_state]
  norm_num

/-- C6 (instance construction).  For the sample problem (time `2`, position `(3, 4)`,
an equation that answers `(5, 0)`) and step `1`, `NewInstance` returns an instance whose
single step has the initial time and position and an empty vector of accelerations: the
answer `[(5, 0)]` of the one call of `compute_acceleration` went to `acceleration`, the
step holds `accelerations`.  The equation was called once and nothing was published. -/
theorem new_instance_stores_no_acceleration :
    NewInstance sample_declarations sample_problem 1 =
      .returned
        ({ inst := { equation := sample_problem.equation, step := 1,
                     previous_steps :=
                       [{ displacements := [(3, 4)], accelerations := [],
                          time := { value := 2, error := 0 } }] },
           ode_calls := [(2, [(3, 4)])], published := [], appended := 0 },
         [(5, 0)]) := by
  simp [NewInstance, sample_declarations, sample_problem]

/-! ## The catalog -/

/-- C7.  Each of the six catalog entries, of order `k`, has an `ɑ` table and a
`β_numerator` table of exactly `k / 2 + 1` coefficients, and its `ɑ[0]` is exactly 1. -/
theorem catalog_tables {P : Type} [AddCommGroup P] [Module ℚ P]
    (startup : FixedStepSizeIntegrator P) (integ : SymmetricLinearMultistepIntegrator P)
    (hmem : integ ∈ catalog startup) :
    integ.α_.length = integ.order_ / 2 + 1 ∧
      integ.β_numerator_.length = integ.order_ / 2 + 1 ∧ integ.α_[0]? = some 1 := by
  simp only [catalog, List.mem_cons, List.mem_singleton, List.not_mem_nil, or_false] at hmem
  rcases hmem with h | h | h | h | h | h <;> subst h <;>
    simp [Quinlan1999Order8A, Quinlan1999Order8B, QuinlanTremaine1990Order8,
      QuinlanTremaine1990Order10, QuinlanTremaine1990Order12, QuinlanTremaine1990Order14]

/-- C7 at `QuinlanTremaine1990Order14`: eight coefficients in each table. -/
theorem catalog_tables_witness :
    (QuinlanTremaine1990Order14 free_flight_startup).α_.length = 14 / 2 + 1 ∧
      (QuinlanTremaine1990Order14 free_flight_startup).β_numerator_.length = 14 / 2 + 1 ∧
      (QuinlanTremaine1990Order14 free_flight_startup).α_[0]? = some 1 :=
  catalog_tables free_flight_startup (QuinlanTremaine1990Order14 free_flight_startup)
    (by simp [catalog])

/-! ## Fatal checks -/

/-- C8.  On an instance (its window is not empty) whose step is not strictly positive,
`Solve` ends in a failed `CHECK` whatever the fuel, and the main loop has taken no step:
nothing was published, no step was appended by the main loop, and the equation was not
evaluated. -/
theorem nonpositive_step_is_fatal {P : Type} [AddCommGroup P] [Module ℚ P]
    (integ : SymmetricLinearMultistepIntegrator P) (decls : Declarations P) (fuel : Nat)
    (t_final : ℚ) (run : Run P) (hstep : run.inst.step ≤ 0)
    (hwindow : run.inst.previous_steps ≠ []) :
    ∃ f run', Solve integ decls fuel t_final run = .fatal f run' ∧ f.is_check = true ∧
      run'.published = run.published ∧ run'.appended = run.appended ∧
      run'.ode_calls = run.ode_calls := by
  unfold Solve
  by_cases hs : run.inst.previous_steps.length < size_t ((integ.order_ : Int) - 1)
  · obtain ⟨f, r, hf, hcheck, -, hpub, hode, happ⟩ := StartupSolve_fatal integ decls t_final run
    refine ⟨f, r, ?_, is_check_of_is_window_size_check f hcheck, hpub, happ, hode⟩
    simp [if_pos hs, hf]
  · cases hlast : run.inst.previous_steps.getLast? with
    | none => exact absurd (List.getLast?_eq_none_iff.mp hlast) hwindow
    | some back =>
      refine ⟨.check_step_positive, run, ?_, rfl, rfl, rfl, rfl⟩
      simp [if_neg hs, hlast, not_lt.mpr hstep]

/-- C8 at the sample window with step `0`. -/
theorem nonpositive_step_is_fatal_witness :
    ∃ f run', Solve (Quinlan1999Order8A free_flight_startup) sample_declarations 5 100
        (free_run 0 free_window) = .fatal f run' ∧ f.is_check = true ∧
      run'.published = (free_run 0 free_window).published ∧
      run'.appended = (free_run 0 free_window).appended ∧
      run'.ode_calls = (free_run 0 free_window).ode_calls :=
  nonpositive_step_is_fatal (Quinlan1999Order8A free_flight_startup) sample_declarations 5 100
    (free_run 0 free_window) (by norm_num [free_run]) (by simp [free_run, free_window])

/-- C10.  On an instance whose window holds fewer than `order_ - 1` steps, `Solve` never
returns and never runs its main loop, whatever `t_final` (in particular when `t_final`
is too early for the startup run to manufacture the missing steps) and whatever the
startup integrator publishes: it terminates in `StartupSolve` on a check of the size of
the window, which is the final `CHECK_EQ(previous_steps.size(), order_ - 1)` when the
window is not empty, the window then still holding fewer than `order_ - 1` steps. -/
theorem startup_failure_is_fatal {P : Type} [AddCommGroup P] [Module ℚ P]
    (integ : SymmetricLinearMultistepIntegrator P) (decls : Declarations P) (fuel : Nat)
    (t_final : ℚ) (run : Run P)
    (hs : run.inst.previous_steps.length < size_t ((integ.order_ : Int) - 1)) :
    ∃ f run', Solve integ decls fuel t_final run = .fatal f run' ∧
      f.is_window_size_check = true ∧
      (run.inst.previous_steps ≠ [] →
        f = .check_size_eq ∧
        run'.inst.previous_steps.length < size_t ((integ.order_ : Int) - 1)) ∧
      run'.published = run.published ∧ run'.appended = run.appended ∧
      run'.ode_calls = run.ode_calls := by
  obtain ⟨f, r, hf, hcheck, hsize, hpub, hode, happ⟩ :=
    StartupSolve_fatal integ decls t_final run
  refine ⟨f, r, ?_, hcheck, fun hne => hsize hne hs, hpub, happ, hode⟩
  unfold Solve
  simp [if_pos hs, hf]

/-- C10 at `Quinlan1999Order8A`, a window holding the one step at time `0`, step `1` and
`t_final = 3`, three steps short of the six that are missing. -/
theorem startup_failure_is_fatal_witness :
    ∃ f run', Solve (Quinlan1999Order8A free_flight_startup) sample_declarations 5 3
        (free_run 1 [free_step 0]) = .fatal f run' ∧
      f.is_window_size_check = true ∧
      ((free_run 1 [free_step 0]).inst.previous_steps ≠ [] →
        f = .check_size_eq ∧
        run'.inst.previous_steps.length <
          size_t (((Quinlan1999Order8A free_flight_startup).order_ : Int) - 1)) ∧
      run'.published = (free_run 1 [free_step 0]).published ∧
      run'.appended = (free_run 1 [free_step 0]).appended ∧
      run'.ode_calls = (free_run 1 [free_step 0]).ode_calls :=
  startup_failure_is_fatal (Quinlan1999Order8A free_flight_startup) sample_declarations 5 3
    (free_run 1 [free_step 0]) (by decide)

/-! ## Published velocities -/

/-- An iteration of the main loop that completes has moved the reference `t` one place
towards the front and published exactly one state, whose velocities are `dimension`
default-constructed values. -/
theorem iteration_ok_published {P : Type} [AddCommGroup P] [Module ℚ P]
    (integ : SymmetricLinearMultistepIntegrator P) (run run' : Run P) (loc loc' : Locals P)
    (dimension : Nat) (h : iteration integ run loc dimension = .ok (run', loc')) :
    loc.t = loc'.t + 1 ∧
      ∃ state, run'.published = run.published ++ [state] ∧
        state.velocities = List.replicate dimension DoublePrecision.default := by
  unfold iteration at h
  simp only [] at h
  repeat' split at h
  all_goals try cases h
  refine ⟨?_, _, rfl, rfl⟩
  simp only []
  assumption

/-- With more fuel than the place of the reference `t` in the window, the main loop
terminates, and the states it has published all carry `dimension` default-constructed
velocities. -/
theorem main_loop_published {P : Type} [AddCommGroup P] [Module ℚ P]
    (integ : SymmetricLinearMultistepIntegrator P) (t_final : ℚ) (dimension : Nat) :
    ∀ (fuel : Nat) (run : Run P) (loc : Locals P), loc.t < fuel →
      ∃ r new, (main_loop integ t_final dimension fuel run loc = .returned r ∨
          ∃ f, main_loop integ t_final dimension fuel run loc = .fatal f r) ∧
        r.published = run.published ++ new ∧
        ∀ state ∈ new,
          state.velocities = List.replicate dimension DoublePrecision.default := by
  intro fuel
  induction fuel with
  | zero => intro run loc h; exact absurd h (Nat.not_lt_zero _)
  | succ fuel ih =>
    intro run loc hfuel
    unfold main_loop
    cases hcond : loop_condition t_final run loc with
    | error f => exact ⟨run, [], Or.inr ⟨f, rfl⟩, by simp, by simp⟩
    | ok due =>
      cases due with
      | false => exact ⟨run, [], Or.inl rfl, by simp, by simp⟩
      | true =>
        simp only []
        cases hit : iteration integ run loc dimension with
        | error e =>
          obtain ⟨f, run'⟩ := e
          have hlog := iteration_error_log integ run run' loc dimension f hit
          exact ⟨run', [], Or.inr ⟨f, rfl⟩, by simp [hlog.1], by simp⟩
        | ok result =>
          obtain ⟨run', loc'⟩ := result
          obtain ⟨ht, state, hpub, hvel⟩ :=
            iteration_ok_published integ run run' loc loc' dimension hit
          obtain ⟨r, new, hr, hrpub, hnew⟩ := ih run' loc' (by omega)
          refine ⟨r, state :: new, hr, by simp [hrpub, hpub], ?_⟩
          intro s hs
          rcases List.mem_cons.mp hs with h | h
          · rw [h]; exact hvel
          · exact hnew s h

/-- With at least as much fuel as the window has steps, `Solve` terminates, and every
state that its main loop has published carries exactly `dimension` velocities, each a
default-constructed (zero value, zero error) placeholder, where `dimension` is the number
of displacements of the newest step on entry.  (The lemma `Solve_publishes_nothing` shows
that such a state exists only when `dimension` is zero.) -/
theorem Solve_published_velocities {P : Type} [AddCommGroup P] [Module ℚ P]
    (integ : SymmetricLinearMultistepIntegrator P) (decls : Declarations P) (fuel : Nat)
    (t_final : ℚ) (run : Run P) (hfuel : run.inst.previous_steps.length ≤ fuel) :
    ∃ r new, (Solve integ decls fuel t_final run = .returned r ∨
        ∃ f, Solve integ decls fuel t_final run = .fatal f r) ∧
      r.published = run.published ++ new ∧
      ∀ state ∈ new, ∀ back, run.inst.previous_steps.getLast? = some back →
        state.velocities =
          List.replicate back.displacements.length DoublePrecision.default := by
  unfold Solve
  by_cases hs : run.inst.previous_steps.length < size_t ((integ.order_ : Int) - 1)
  · obtain ⟨f, r, hf, -, -, hpub, -, -⟩ := StartupSolve_fatal integ decls t_final run
    exact ⟨r, [], Or.inr ⟨f, by simp [if_pos hs, hf]⟩, by simp [hpub], by simp⟩
  · cases hlast : run.inst.previous_steps.getLast? with
    | none => exact ⟨run, [], Or.inr ⟨.back_of_empty, by simp [if_neg hs, hlast]⟩, by simp,
        by simp⟩
    | some back =>
      by_cases hstep : 0 < run.inst.step
      · have hne : run.inst.previous_steps ≠ [] := by
          intro hnil
          rw [hnil] at hlast
          cases hlast
        have hlen : 0 < run.inst.previous_steps.length := List.length_pos.mpr hne
        obtain ⟨r, new, hr, hpub, hnew⟩ :=
          main_loop_published integ t_final back.displacements.length fuel run
            { t := run.inst.previous_steps.length - 1,
              sums := { sum_minus_αj_qj :=
                          List.replicate back.displacements.length DoublePrecision.default,
                        sum_βj_numerator_aj := List.replicate back.displacements.length 0 } }
            (by simp only []; omega)
        refine ⟨r, new, ?_, hpub, ?_⟩
        · simpa [if_neg hs, hlast, hstep] using hr
        · intro state hstate back' hback'
          cases hback'
          exact hnew state hstate
      · exact ⟨run, [], Or.inr ⟨.check_step_positive, by simp [if_neg hs, hlast, hstep]⟩,
          by simp, by simp⟩

/-! ## The sample of order 1 -/

/-- The order-1 sample runs through two iterations of the main loop: two states are
published, at times `3` and `4`, each without velocities, as the system has no degree of
freedom. -/
theorem order_one_publishes_two :
    Solve order_one sample_declarations 4 5 (free_run 1 bare_window) =
      .returned
        { inst := { equation := free_equation, step := 1,
                    previous_steps := [bare_step 2, bare_step 5, bare_step 3, bare_step 4] },
          ode_calls := [(3, []), (4, [])],
          published :=
            [{ positions := [], velocities := [], time := { value := 3, error := 0 } },
             { positions := [], velocities := [], time := { value := 4, error := 0 } }],
          appended := 2 } := by
  simp [Solve, order_one, free_run, bare_window, bare_step, size_t, main_loop, loop_condition,
    iteration, for_loop, stencil_body, deref_forward, deref_reverse, vector_get, bind,
    Except.bind, pure, Except.pure, DoublePrecision.Increment, DoublePrecision.default,
    Step.default, SystemState.default, free_equation]
  norm_num

/-! ## Consistency of the catalog -/

/-- C27 fails for two entries of the catalog.  For `QuinlanTremaine1990Order10` the
coefficients `alpha_j` add up to `4`, not `0`: its `ɑ[5]` is `2.0`.  For
`QuinlanTremaine1990Order8` they add up to `0`, but `sum j^2 alpha_j = 10` whereas
`2 * (sum beta_j) / β_denominator = 20189/756`: its `β_numerator[4]` is `50516.0`.  With
the opposite sign for each of these two constants both entries are consistent.  The other
four entries are consistent. -/
theorem catalog_consistency {P : Type} [AddCommGroup P] [Module ℚ P]
    (startup : FixedStepSizeIntegrator P) :
    sum_α (QuinlanTremaine1990Order10 startup) = 4 ∧
    (sum_α (QuinlanTremaine1990Order8 startup) = 0 ∧
      sum_j2_α (QuinlanTremaine1990Order8 startup) = 10 ∧
      2 * sum_β (QuinlanTremaine1990Order8 startup) /
        (QuinlanTremaine1990Order8 startup).β_denominator_ = 20189 / 756) ∧
    consistent { QuinlanTremaine1990Order10 startup with α_ := [1, -1, 1, -1, 1, -2] } ∧
    consistent { QuinlanTremaine1990Order8 startup with
      β_numerator_ := [0, 17671, -23622, 61449, -50516] } ∧
    consistent (Quinlan1999Order8A startup) ∧ consistent (Quinlan1999Order8B startup) ∧
    consistent (QuinlanTremaine1990Order12 startup) ∧
    consistent (QuinlanTremaine1990Order14 startup) := by
  refine ⟨?_, ⟨?_, ?_, ?_⟩, ⟨?_, ?_⟩, ⟨?_, ?_⟩, ⟨?_, ?_⟩, ⟨?_, ?_⟩, ⟨?_, ?_⟩, ⟨?_, ?_⟩⟩ <;>
    simp only [sum_α, sum_j2_α, sum_β, extended, QuinlanTremaine1990Order10,
      QuinlanTremaine1990Order8, Quinlan1999Order8A, Quinlan1999Order8B,
      QuinlanTremaine1990Order12, QuinlanTremaine1990Order14] <;>
    norm_num [List.range_succ]

/-! ## The main loop on the samples of order 1 -/

/-- The order-1 sample with `t_final = 4` runs through one iteration of the main loop: the
new step and the published state carry the time `3` that was the newest on entry, the
equation is evaluated at that time, and it is the step that was the newest on entry
whose time becomes `4`. -/
theorem order_one_takes_one_step :
    Solve order_one sample_declarations 4 4 (free_run 1 bare_window) =
      .returned
        { inst := { equation := free_equation, step := 1,
                    previous_steps := [bare_step 1, bare_step 2, bare_step 4, bare_step 3] },
          ode_calls := [(3, [])],
          published :=
            [{ positions := [], velocities := [], time := { value := 3, error := 0 } }],
          appended := 1 } := by
  simp [Solve, order_one, free_run, bare_window, bare_step, size_t, main_loop, loop_condition,
    iteration, for_loop, stencil_body, deref_forward, deref_reverse, vector_get, bind,
    Except.bind, pure, Except.pure, DoublePrecision.Increment, DoublePrecision.default,
    Step.default, SystemState.default, free_equation]
  norm_num

/-- The order-1 configuration on the sample window with one degree of freedom: the first
iteration of the main loop stops at `current_step.displacements[0] = ...`, an access
outside the empty vector of displacements of the step that `emplace_back()` created. -/
theorem order_one_one_degree_of_freedom (fuel : Nat) (t_final : ℚ) (h : 7 ≤ t_final) :
    Solve order_one sample_declarations (fuel + 1) t_final (free_run 1 free_window) =
      .fatal .index_out_of_range
        { inst := { equation := free_equation, step := 1,
                    previous_steps :=
                      [free_step 1, free_step 2, free_step 3, free_step 4, free_step 5,
                       free_step 6,
                       { displacements := [], accelerations := [],
                         time := { value := 6, error := 0 } }] },
          ode_calls := [], published := [], appended := 1 } := by
  have hdue : (1 : ℚ) ≤ t_final - 6 := by linarith
  simp [Solve, order_one, free_run, free_window, free_step, size_t, main_loop, loop_condition,
    iteration, for_loop, stencil_body, stencil_dof, fill_dof, deref_forward, deref_reverse,
    vector_get, vector_set, bind, Except.bind, pure, Except.pure, DoublePrecision.Increment,
    DoublePrecision.default, Step.default, SystemState.default, free_equation, hdue]

/-! ## No state with a velocity is published -/

/-- The body of the loop that fills the new step fails when the step has no displacement to
assign to, as is the case of the step created by `emplace_back()`. -/
theorem fill_dof_error {P : Type} [AddCommGroup P] [Module ℚ P] (h β_denominator_ : ℚ)
    (sums : Sums P) (d : Nat) (s : Fill P) (hempty : s.current_step.displacements = []) :
    ∃ f, fill_dof h β_denominator_ sums d s = .error f := by
  unfold fill_dof
  cases vector_get sums.sum_minus_αj_qj d with
  | error f => exact ⟨f, rfl⟩
  | ok sum_q =>
    cases vector_get sums.sum_βj_numerator_aj d with
    | error f => exact ⟨f, rfl⟩
    | ok sum_a =>
      exact ⟨.index_out_of_range, by simp [bind, Except.bind, vector_set, hempty]⟩

/-- An iteration of the main loop completes only for a system without any degree of
freedom: with `dimension` at least 1, the loop that fills the new step fails at `d = 0`. -/
theorem iteration_ok_dimension {P : Type} [AddCommGroup P] [Module ℚ P]
    (integ : SymmetricLinearMultistepIntegrator P) (run : Run P) (loc : Locals P)
    (dimension : Nat) (result : Run P × Locals P)
    (h : iteration integ run loc dimension = .ok result) : dimension = 0 := by
  cases dimension with
  | zero => rfl
  | succ n =>
    exfalso
    have hloop : ∀ (sums : Sums P) (s filled : Fill P), s.current_step.displacements = [] →
        for_loop (fill_dof run.inst.step integ.β_denominator_ sums) 0 (n + 1) s =
          .ok filled → False := by
      intro sums s filled hempty hfilled
      obtain ⟨f, hf⟩ := fill_dof_error run.inst.step integ.β_denominator_ sums 0 s hempty
      simp [for_loop, hf] at hfilled
    unfold iteration at h
    simp only [] at h
    repeat' split at h
    all_goals try cases h
    rename_i hfill
    exact hloop _ _ _ (by rfl) hfill

/-- With at least one degree of freedom the main loop takes no step: it terminates, given
one unit of fuel, without having published a state or evaluated the equation. -/
theorem main_loop_publishes_nothing {P : Type} [AddCommGroup P] [Module ℚ P]
    (integ : SymmetricLinearMultistepIntegrator P) (t_final : ℚ) (dimension fuel : Nat)
    (run : Run P) (loc : Locals P) (hdim : 1 ≤ dimension) :
    ∃ r, (main_loop integ t_final dimension (fuel + 1) run loc = .returned r ∨
        ∃ f, main_loop integ t_final dimension (fuel + 1) run loc = .fatal f r) ∧
      r.published = run.published ∧ r.ode_calls = run.ode_calls := by
  unfold main_loop
  cases hcond : loop_condition t_final run loc with
  | error f => exact ⟨run, Or.inr ⟨f, rfl⟩, rfl, rfl⟩
  | ok due =>
    cases due with
    | false => exact ⟨run, Or.inl rfl, rfl, rfl⟩
    | true =>
      simp only []
      cases hit : iteration integ run loc dimension with
      | error e =>
        obtain ⟨f, run'⟩ := e
        have hlog := iteration_error_log integ run run' loc dimension f hit
        exact ⟨run', Or.inr ⟨f, rfl⟩, hlog.1, hlog.2⟩
      | ok result =>
        have hzero := iteration_ok_dimension integ run loc dimension result hit
        omega

/-- When the newest step of the window has at least one displacement, `Solve` terminates,
given one unit of fuel, without having published a state or evaluated the equation in its
main loop: the assignment of the velocities of the published state is never reached. -/
theorem Solve_publishes_nothing {P : Type} [AddCommGroup P] [Module ℚ P]
    (integ : SymmetricLinearMultistepIntegrator P) (decls : Declarations P) (fuel : Nat)
    (t_final : ℚ) (run : Run P)
    (hdim : ∀ back, run.inst.previous_steps.getLast? = some back →
      1 ≤ back.displacements.length) :
    ∃ r, (Solve integ decls (fuel + 1) t_final run = .returned r ∨
        ∃ f, Solve integ decls (fuel + 1) t_final run = .fatal f r) ∧
      r.published = run.published ∧ r.ode_calls = run.ode_calls := by
  unfold Solve
  by_cases hs : run.inst.previous_steps.length < size_t ((integ.order_ : Int) - 1)
  · obtain ⟨f, r, hf, -, -, hpub, hode, -⟩ := StartupSolve_fatal integ decls t_final run
    exact ⟨r, Or.inr ⟨f, by simp [if_pos hs, hf]⟩, hpub, hode⟩
  · cases hlast : run.inst.previous_steps.getLast? with
    | none => exact ⟨run, Or.inr ⟨.back_of_empty, by simp [if_neg hs, hlast]⟩, rfl, rfl⟩
    | some back =>
      by_cases hstep : 0 < run.inst.step
      · obtain ⟨r, hr, hpub, hode⟩ :=
          main_loop_publishes_nothing integ t_final back.displacements.length fuel run
            { t := run.inst.previous_steps.length - 1,
              sums := { sum_minus_αj_qj :=
                          List.replicate back.displacements.length DoublePrecision.default,
                        sum_βj_numerator_aj := List.replicate back.displacements.length 0 } }
            (hdim back hlast)
        exact ⟨r, by simpa [if_neg hs, hlast, hstep] using hr, hpub, hode⟩
      · exact ⟨run, Or.inr ⟨.check_step_positive, by simp [if_neg hs, hlast, hstep]⟩,
          rfl, rfl⟩

/-- The lemma `Solve_publishes_nothing` applies to the sample window, whose steps have one
degree of freedom, with any configuration, fuel and `t_final`. -/
theorem Solve_publishes_nothing_on_the_sample
    (integ : SymmetricLinearMultistepIntegrator (ℚ × ℚ)) (fuel : Nat) (t_final : ℚ) :
    ∃ r, (Solve integ sample_declarations (fuel + 1) t_final (free_run 1 free_window) =
          .returned r ∨
        ∃ f, Solve integ sample_declarations (fuel + 1) t_final (free_run 1 free_window) =
          .fatal f r) ∧
      r.published = [] ∧ r.ode_calls = [] :=
  Solve_publishes_nothing integ sample_declarations fuel t_final (free_run 1 free_window)
    (by
      intro back hback
      have hsix : back = free_step 6 := (Option.some.inj hback).symm
      rw [hsix]
      exact le_refl 1)

/-- C21 (per-step formula).  No main-loop step stores the displacement of the formula.
With `Quinlan1999Order8A` on the sample window (times `0..6`, step `1`, `t_final = 7`) the
step stops in the loop on `j`, on the read through `back_it`, and the window is as it was.
With the configuration of order 1 on the same window the loop on `j` completes, and the step
stops at the write of `current_step.displacements[0]`: the new step has no displacement.
And the accumulators are not reset: entered with `(-6, 0)`, which a first step over this
window leaves in `Σj_minus_ɑj_qj`, the loop on `j` of a second step ends with `(-12, 0)`,
twice the sum of the formula. -/
theorem new_displacement_is_never_stored :
    Solve (Quinlan1999Order8A free_flight_startup) sample_declarations 1 7
        (free_run 1 free_window) =
      .fatal .iterator_out_of_range (free_run 1 free_window) ∧
    (∃ run', Solve order_one sample_declarations 1 7 (free_run 1 free_window) =
        .fatal .index_out_of_range run' ∧
      run'.inst.previous_steps.getLast?.map (fun step => step.displacements) = some []) ∧
    for_loop (stencil_body order_one free_window 1) 0 (order_one.order_ / 2 + 1)
        { front_it := 0, back_it := 0,
          sums := { sum_minus_αj_qj := [{ value := (0, 0), error := 0 }],
                    sum_βj_numerator_aj := [(0, 0)] } } =
      .ok { front_it := 1, back_it := -1,
            sums := { sum_minus_αj_qj := [{ value := (-6, 0), error := 0 }],
                      sum_βj_numerator_aj := [(0, 0)] } } ∧
    for_loop (stencil_body order_one free_window 1) 0 (order_one.order_ / 2 + 1)
        { front_it := 0, back_it := 0,
          sums := { sum_minus_αj_qj := [{ value := (-6, 0), error := 0 }],
                    sum_βj_numerator_aj := [(0, 0)] } } =
      .ok { front_it := 1, back_it := -1,
            sums := { sum_minus_αj_qj := [{ value := (-12, 0), error := 0 }],
                      sum_βj_numerator_aj := [(0, 0)] } } := by
  refine ⟨free_window_due 0 7 le_rfl,
    ⟨_, order_one_one_degree_of_freedom 0 7 le_rfl, rfl⟩, ?_, ?_⟩
  · simp [order_one, free_window, free_step, for_loop, stencil_body, stencil_dof,
      deref_forward, deref_reverse, vector_get, vector_set, bind, Except.bind, pure,
      Except.pure, DoublePrecision.Increment]
  · simp [order_one, free_window, free_step, for_loop, stencil_body, stencil_dof,
      deref_forward, deref_reverse, vector_get, vector_set, bind, Except.bind, pure,
      Except.pure, DoublePrecision.Increment]
    norm_num

/-- C22.  The equation is not evaluated at the previous newest time plus `step`.  With the
configuration of order 1 on the window without degree of freedom (times `0..3`, step `1`)
and `t_final = 4`, `Solve` takes one step: the equation is evaluated at time `3`, the
published state and the new step carry the time `3`, and the previous newest time plus
`step` is `4`.  With `Quinlan1999Order8A` on the sample window and `t_final = 7` the
equation is not evaluated at all. -/
theorem acceleration_is_evaluated_at_the_previous_time :
    (∃ run', Solve order_one sample_declarations 4 4 (free_run 1 bare_window) =
        .returned run' ∧
      run'.ode_calls = [(3, [])] ∧
      run'.published.map (fun state => state.time.value) = [3] ∧
      run'.inst.previous_steps.getLast?.map (fun step => step.time.value) = some 3 ∧
      bare_window.getLast?.map (fun step => step.time.value + 1) = some 4) ∧
    ∃ run', Solve (Quinlan1999Order8A free_flight_startup) sample_declarations 1 7
        (free_run 1 free_window) = .fatal .iterator_out_of_range run' ∧
      run'.ode_calls = [] :=
  ⟨⟨_, order_one_takes_one_step, rfl, rfl, rfl, by norm_num [bare_window, bare_step]⟩,
    ⟨_, free_window_due 0 7 le_rfl, rfl⟩⟩

/-- C23 (window time invariant).  The configuration of order 1 on the window without degree
of freedom, step `1`: the times of the window are `0, 1, 2, 3` on entry; after the one
step of `Solve` for `t_final = 4` they are `1, 2, 4, 3`, and after the two steps for
`t_final = 5` they are `2, 5, 3, 4`.  The newest time is the previous newest time, not that
time plus `step`, and the times are not increasing.  With `Quinlan1999Order8A` on the
sample window (times `0..6`) and `t_final = 7`, the step that is due stops before it
touches the window, whose newest time is still `6`. -/
theorem window_times_are_not_increasing :
    bare_window.map (fun step => step.time.value) = [0, 1, 2, 3] ∧
    (∃ run', Solve order_one sample_declarations 4 4 (free_run 1 bare_window) =
        .returned run' ∧
      run'.inst.previous_steps.map (fun step => step.time.value) = [1, 2, 4, 3]) ∧
    (∃ run', Solve order_one sample_declarations 4 5 (free_run 1 bare_window) =
        .returned run' ∧
      run'.inst.previous_steps.map (fun step => step.time.value) = [2, 5, 3, 4]) ∧
    ∃ run', Solve (Quinlan1999Order8A free_flight_startup) sample_declarations 1 7
        (free_run 1 free_window) = .fatal .iterator_out_of_range run' ∧
      run'.inst.previous_steps.map (fun step => step.time.value) = [0, 1, 2, 3, 4, 5, 6] :=
  ⟨rfl, ⟨_, order_one_takes_one_step, rfl⟩, ⟨_, order_one_publishes_two, rfl⟩,
    ⟨_, free_window_due 0 7 le_rfl, rfl⟩⟩

/-- C24 (window shape invariant).  Indices are used outside their bounds.  With the
configuration of order 1 on the sample window (one degree of freedom, `t_final = 8`) the first
step evicts the oldest step and appends one, the window keeping its seven steps, and then
writes `current_step.displacements[0]` in a step that holds no displacement and no
acceleration: the access is outside the vector.  With `Quinlan1999Order8A` the step reads
through `back_it` outside the window: at `j = 1` the iterator is one place before
`rbegin()`. -/
theorem new_step_is_indexed_out_of_bounds :
    free_window.getLast?.map (fun step => step.displacements.length) = some 1 ∧
    (∃ run', Solve order_one sample_declarations 1 8 (free_run 1 free_window) =
        .fatal .index_out_of_range run' ∧
      run'.inst.previous_steps.length = 7 ∧ run'.appended = 1 ∧
      run'.inst.previous_steps.getLast?.map
        (fun step => (step.displacements.length, step.accelerations.length)) =
          some (0, 0)) ∧
    Solve (Quinlan1999Order8A free_flight_startup) sample_declarations 1 8
        (free_run 1 free_window) =
      .fatal .iterator_out_of_range (free_run 1 free_window) ∧
    ∀ sums : Sums (ℚ × ℚ), stencil_body (Quinlan1999Order8A free_flight_startup) free_window 1 1
      { front_it := 1, back_it := -1, sums := sums } = .error .iterator_out_of_range :=
  ⟨rfl, ⟨_, order_one_one_degree_of_freedom 0 8 (by norm_num), rfl, rfl, rfl⟩,
    free_window_due 0 8 (by norm_num),
    fun sums => stencil_body_error _ _ _ _ _ (show ((-1 : Int) < 0) by decide)⟩

/-! ## The startup run -/

/-- What `StartupSolve` does on a window that is not empty and is shorter than `order_ - 1`:
the states that the startup integrator publishes go through `startup_append_state`, one
after the other, and the final check fails. -/
theorem StartupSolve_run {P : Type} (integ : SymmetricLinearMultistepIntegrator P)
    (decls : Declarations P) (t_final : ℚ) (run : Run P) (back : Step P)
    (hback : run.inst.previous_steps.getLast? = some back)
    (hshort : run.inst.previous_steps.length < size_t ((integ.order_ : Int) - 1)) :
    StartupSolve integ decls t_final run =
      .fatal .check_size_eq
        { run with inst := { run.inst with
            previous_steps :=
              (integ.startup_integrator_.Solve run.inst.equation (decls.state_of_step back)
                run.inst.step
                (min ((decls.state_of_step back).time.value +
                    (size_t ((integ.order_ : Int) - 1 - run.inst.previous_steps.length) : ℚ) *
                      run.inst.step) t_final)).foldl
                (startup_append_state integ decls) run.inst.previous_steps } } := by
  have hlen := startup_window_length_lt integ decls
    (integ.startup_integrator_.Solve run.inst.equation (decls.state_of_step back)
      run.inst.step
      (min ((decls.state_of_step back).time.value +
          (size_t ((integ.order_ : Int) - 1 - run.inst.previous_steps.length) : ℚ) *
            run.inst.step) t_final))
    run.inst.previous_steps hshort
  unfold StartupSolve
  simp only [hback]
  rw [if_neg (not_not.mpr hshort), if_neg (Nat.ne_of_lt hlen)]

/-- The callback of the startup run appends the state to the window, from which it may
have dropped the oldest step. -/
theorem startup_append_state_appends {P : Type} (integ : SymmetricLinearMultistepIntegrator P)
    (decls : Declarations P) (previous_steps : List (Step P)) (state : SystemState P)
    (hwindow : previous_steps ≠ []) :
    ∃ kept, startup_append_state integ decls previous_steps state =
        kept ++ [decls.step_of_state state] ∧
      (kept = previous_steps ∨ kept = previous_steps.tail) := by
  unfold startup_append_state
  simp only []
  split
  · refine ⟨previous_steps.tail, ?_, Or.inr rfl⟩
    cases previous_steps with
    | nil => exact absurd rfl hwindow
    | cons first rest => rfl
  · exact ⟨previous_steps, rfl, Or.inl rfl⟩

/-- C25.  Whatever the integrator, the instance and `t_final`, `StartupSolve` ends without a
call of the publication callback of the caller: the states published are those that were
published on entry.  When the window is not empty and is shorter than `order_ - 1`, so
that the startup integrator runs, the window on exit is the window on entry through which
every state of the startup run has gone by `startup_append_state`, in order; and
`startup_append_state` appends the state to the window. -/
theorem startup_states_go_to_the_window_only {P : Type}
    (integ : SymmetricLinearMultistepIntegrator P) (decls : Declarations P) (t_final : ℚ)
    (run : Run P) :
    (∃ f run', StartupSolve integ decls t_final run = .fatal f run' ∧
      run'.published = run.published ∧
      ∀ back, run.inst.previous_steps.getLast? = some back →
        run.inst.previous_steps.length < size_t ((integ.order_ : Int) - 1) →
        ∃ bound, run'.inst.previous_steps =
          (integ.startup_integrator_.Solve run.inst.equation (decls.state_of_step back)
            run.inst.step bound).foldl (startup_append_state integ decls)
              run.inst.previous_steps) ∧
    ∀ (previous_steps : List (Step P)) (state : SystemState P), previous_steps ≠ [] →
      ∃ kept, startup_append_state integ decls previous_steps state =
          kept ++ [decls.step_of_state state] ∧
        (kept = previous_steps ∨ kept = previous_steps.tail) := by
  refine ⟨?_, startup_append_state_appends integ decls⟩
  obtain ⟨f, run', hrun, -, -, hpublished, -, -⟩ := StartupSolve_fatal integ decls t_final run
  refine ⟨f, run', hrun, hpublished, ?_⟩
  intro back hback hshort
  rw [StartupSolve_run integ decls t_final run back hback hshort] at hrun
  injection hrun with _ hrun'
  rw [← hrun']
  exact ⟨_, rfl⟩

/-- C25 at `Quinlan1999Order8A`, a window holding the one step at time `0`, step `1` and
`t_final = 100`. -/
theorem startup_states_go_to_the_window_only_witness :
    ∃ f run', StartupSolve (Quinlan1999Order8A free_flight_startup) sample_declarations 100
        (free_run 1 [free_step 0]) = .fatal f run' ∧
      run'.published = (free_run 1 [free_step 0]).published :=
  let ⟨f, run', hrun, hpublished, _⟩ :=
    (startup_states_go_to_the_window_only (Quinlan1999Order8A free_flight_startup)
      sample_declarations 100 (free_run 1 [free_step 0])).1
  ⟨f, run', hrun, hpublished⟩

/-- C26.  On a window that is not empty and holds `s` steps, fewer than `order_ - 1`, for an
order that is positive and fits an `int`, and conversions that keep the time of a step:
`StartupSolve` runs the startup integrator from the newest step with the step of the
instance up to `min(t_s + (order_ - 1 - s) * step, t_final)`; the bound is at most `t_final`.
If moreover the step is positive and the startup integrator keeps to its contract (it
publishes no state after the bound it is handed, and its `n` states are `n` steps apart from
the initial time, within the bound), no state of the startup run is after `t_final` and there
are at most `order_ - 1 - s` of them. -/
theorem startup_run_is_bounded {P : Type} (integ : SymmetricLinearMultistepIntegrator P)
    (decls : Declarations P) (t_final : ℚ) (run : Run P) (back : Step P)
    (hback : run.inst.previous_steps.getLast? = some back)
    (hshort : run.inst.previous_steps.length < size_t ((integ.order_ : Int) - 1))
    (horder : 1 ≤ integ.order_) (hint : integ.order_ < 2 ^ 31)
    (htime : (decls.state_of_step back).time = back.time) :
    StartupSolve integ decls t_final run =
      .fatal .check_size_eq
        { run with inst := { run.inst with
            previous_steps := (startup_states integ decls t_final run back).foldl
              (startup_append_state integ decls) run.inst.previous_steps } } ∧
    startup_bound integ t_final run back ≤ t_final ∧
    (0 < run.inst.step →
      (∀ bound,
        (∀ state ∈ integ.startup_integrator_.Solve run.inst.equation
            (decls.state_of_step back) run.inst.step bound, state.time.value ≤ bound) ∧
        (integ.startup_integrator_.Solve run.inst.equation
            (decls.state_of_step back) run.inst.step bound = [] ∨
          ((integ.startup_integrator_.Solve run.inst.equation
            (decls.state_of_step back) run.inst.step bound).length : ℚ) * run.inst.step ≤
              bound - back.time.value)) →
      (∀ state ∈ startup_states integ decls t_final run back, state.time.value ≤ t_final) ∧
        (startup_states integ decls t_final run back).length ≤
          integ.order_ - 1 - run.inst.previous_steps.length) := by
  have hsize : size_t ((integ.order_ : Int) - 1 - run.inst.previous_steps.length) =
      integ.order_ - 1 - run.inst.previous_steps.length := by
    unfold size_t at hshort ⊢
    norm_num at hint
    omega
  have hrun := StartupSolve_run integ decls t_final run back hback hshort
  rw [hsize, htime] at hrun
  refine ⟨hrun, min_le_right _ _, ?_⟩
  intro hstep hcontract
  obtain ⟨htimes, hcount⟩ := hcontract (startup_bound integ t_final run back)
  constructor
  · intro state hstate
    exact le_trans (htimes state hstate) (min_le_right _ _)
  · rcases hcount with hnone | hcount
    · simp only [startup_states, hnone, List.length_nil, Nat.zero_le]
    · have hbound : startup_bound integ t_final run back - back.time.value ≤
          ((integ.order_ - 1 - run.inst.previous_steps.length : Nat) : ℚ) * run.inst.step := by
        have := min_le_left (back.time.value +
          ((integ.order_ - 1 - run.inst.previous_steps.length : Nat) : ℚ) * run.inst.step)
          t_final
        unfold startup_bound
        linarith
      have hle := le_of_mul_le_mul_right (le_trans hcount hbound) hstep
      exact_mod_cast hle

/-- The startup integrator of the samples keeps to the contract of a fixed-step run from
the step at time `0` with step `1`: no state after the bound, and `n` states within `n`
steps of the initial time. -/
theorem free_flight_startup_contract (bound : ℚ) :
    (∀ state ∈ free_flight_startup.Solve free_equation
        (sample_declarations.state_of_step (free_step 0)) 1 bound, state.time.value ≤ bound) ∧
    (free_flight_startup.Solve free_equation
        (sample_declarations.state_of_step (free_step 0)) 1 bound = [] ∨
      ((free_flight_startup.Solve free_equation
        (sample_declarations.state_of_step (free_step 0)) 1 bound).length : ℚ) * 1 ≤
          bound - (free_step 0).time.value) := by
  have hlist : ∀ range : List Nat, (do let a ← range; pure (a : ℚ) : List ℚ) =
      List.map (fun a : Nat => (a : ℚ)) range := by
    intro range
    induction range with
    | nil => rfl
    | cons a rest ih =>
      rw [List.map_cons, ← ih]
      rfl
  by_cases hbound : 0 ≤ bound
  · have hfloor : ((⌊bound⌋₊ : Nat) : ℚ) ≤ bound := Nat.floor_le hbound
    constructor
    · intro state hstate
      simp only [free_flight_startup, sample_declarations, free_step, sub_zero, div_one]
        at hstate
      rw [hlist] at hstate
      simp only [List.map_map, List.mem_map, List.mem_range] at hstate
      obtain ⟨i, hi, rfl⟩ := hstate
      have hi' : ((i : ℚ) + 1) ≤ (⌊bound⌋₊ : Nat) := by exact_mod_cast hi
      simp only [Function.comp, zero_add, mul_one]
      linarith
    · right
      simp only [free_flight_startup, sample_declarations, free_step, sub_zero, div_one]
      rw [hlist]
      simp only [List.length_map, List.length_range, mul_one]
      exact hfloor
  · have hfloor : ⌊bound⌋₊ = 0 := Nat.floor_of_nonpos (le_of_lt (not_le.mp hbound))
    constructor
    · intro state hstate
      simp [free_flight_startup, sample_declarations, free_step, hfloor] at hstate
    · left
      simp [free_flight_startup, sample_declarations, free_step, hfloor]

/-- C26 at `Quinlan1999Order8A`, a window holding the one step at time `0`, step `1` and
`t_final = 3`: the bound is `min(0 + 6 * 1, 3)`, no state of the startup run is after time
`3`, and there are at most six of them. -/
theorem startup_run_is_bounded_witness :
    startup_bound (Quinlan1999Order8A free_flight_startup) 3 (free_run 1 [free_step 0])
        (free_step 0) ≤ 3 ∧
    (∀ state ∈ startup_states (Quinlan1999Order8A free_flight_startup) sample_declarations 3
        (free_run 1 [free_step 0]) (free_step 0), state.time.value ≤ 3) ∧
    (startup_states (Quinlan1999Order8A free_flight_startup) sample_declarations 3
        (free_run 1 [free_step 0]) (free_step 0)).length ≤ 8 - 1 - 1 :=
  have h := startup_run_is_bounded (Quinlan1999Order8A free_flight_startup)
    sample_declarations 3 (free_run 1 [free_step 0]) (free_step 0) rfl (by decide)
    (by decide) (by decide) rfl
  ⟨h.2.1, h.2.2 (by norm_num [free_run]) free_flight_startup_contract⟩
end integrators

namespace astronomy

/-! ## `ModernUTCMinusTAI` -/

/-- The June entries of `leap_seconds`, as `LeapSecond` reads them. -/
theorem LeapSecond_june (n : Nat) (hn : n < 45) :
    LeapSecond (1972 + n) 6 = .ok (leap_seconds.getD (2 * n) 0) := by
  interval_cases n <;> rfl

/-- The December entries of `leap_seconds`, as `LeapSecond` reads them. -/
theorem LeapSecond_december (n : Nat) (hn : n < 45) :
    LeapSecond (1972 + n) 12 = .ok (leap_seconds.getD (2 * n + 1) 0) := by
  interval_cases n <;> rfl

set_option maxRecDepth 10000 in
/-- Each entry of `leap_seconds` counts for itself among the `+1` entries. -/
theorem leap_seconds_count_succ (i : Nat) (hi : i < 90) :
    ((leap_seconds.take (i + 1)).count 1 : Int) =
      (leap_seconds.take i).count 1 + leap_seconds.getD i 0 := by
  interval_cases i <;> rfl


/-- The factory `Date::Calendar` accepts every first of January. -/
theorem Calendar_january (year : Int) :
    Date.Calendar year 1 1 = .ok { year := year, month := 1, day := 1 } := by
  unfold Date.Calendar CHECKING
  rw [if_pos]
  simp only [decide_eq_true_eq, Date.valid, month_length]
  refine ⟨by norm_num, by norm_num, by norm_num, ?_⟩
  norm_num

/-- On the first of January of the year `1972 + n`, for `n ≤ 45`, `ModernUTCMinusTAI` is
minus ten seconds minus the number of `+1` entries of the `n` years before. -/
theorem ModernUTCMinusTAI_january (n : Nat) (hn : n ≤ 45) :
    ModernUTCMinusTAI { year := 1972 + n, month := 1, day := 1 } =
      .ok (-(10 + ((leap_seconds.take (n * 2)).count 1 : ℚ)) * Second) := by
  induction n with
  | zero =>
    rw [ModernUTCMinusTAI]
    simp [Second]
  | succ n ih =>
    rw [ModernUTCMinusTAI]
    have hyear : ((1972 : Int) + ((n + 1 : Nat) : Int)) - 1 = 1972 + (n : Int) := by
      push_cast; ring
    have hne : ¬ ((1972 : Int) + ((n + 1 : Nat) : Int) = 1972) := by
      push_cast; omega
    simp only [and_self, if_true, if_neg hne, hyear]
    have h1 := leap_seconds_count_succ (2 * n) (by omega)
    have h2 := leap_seconds_count_succ (2 * n + 1) (by omega)
    have hcount : (((leap_seconds.take ((n + 1) * 2)).count 1 : Nat) : ℚ) =
        (leap_seconds.take (n * 2)).count 1 + (leap_seconds.getD (2 * n) 0 : Int) +
          (leap_seconds.getD (2 * n + 1) 0 : Int) := by
      have h3 : ((leap_seconds.take ((n + 1) * 2)).count 1 : Int) =
          (leap_seconds.take (n * 2)).count 1 + leap_seconds.getD (2 * n) 0 +
            leap_seconds.getD (2 * n + 1) 0 := by
        rw [show (n + 1) * 2 = 2 * n + 1 + 1 by ring, h2, h1, show 2 * n = n * 2 by ring]
      exact_mod_cast h3
    split
    · rename_i f hjune
      rw [hyear, LeapSecond_june n (by omega)] at hjune
      cases hjune
    · rename_i june hjune
      rw [hyear, LeapSecond_june n (by omega)] at hjune
      cases hjune
      split
      · rename_i f hdecember
        rw [LeapSecond_december n (by omega)] at hdecember
        cases hdecember
      · rename_i december hdecember
        rw [LeapSecond_december n (by omega)] at hdecember
        cases hdecember
        split
        · rename_i f hjanuary
          rw [hyear, Calendar_january] at hjanuary
          cases hjanuary
        · rename_i january hjanuary
          rw [hyear, Calendar_january] at hjanuary
          cases hjanuary
          rw [ih (by omega)]
          simp only [hcount, Second]
          congr 1
          ring

/-- The entries of `leap_seconds` are `0` or `+1`. -/
theorem leap_seconds_entries (i : Nat) (hi : i < 90) :
    leap_seconds.getD i 0 = 0 ∨ leap_seconds.getD i 0 = 1 := by
  interval_cases i <;> decide

/-- When `LeapSecond` returns, its year lies between 1972 and 2016 and its month is June
or December. -/
theorem LeapSecond_ok (year month value : Int) (h : LeapSecond year month = .ok value) :
    ∃ n : Nat, n < 45 ∧ year = 1972 + n ∧ (month = 6 ∨ month = 12) := by
  unfold LeapSecond CHECKING int_below_size at h
  have hlength : leap_seconds.length = 90 := rfl
  by_cases h6 : month = 6
  · rw [if_pos h6] at h
    split at h
    · rename_i hcheck
      simp only [decide_eq_true_eq, hlength] at hcheck
      exact ⟨(year - 1972).toNat, by omega, by omega, Or.inl h6⟩
    · cases h
  · rw [if_neg h6] at h
    split at h
    · rename_i h12
      split at h
      · rename_i hcheck
        simp only [decide_eq_true_eq, hlength] at hcheck h12
        exact ⟨(year - 1972).toNat, by omega, by omega, Or.inr h12⟩
      · cases h
    · cases h

/-- From 1972-01-01 to 2017-06-30, `ModernUTCMinusTAI` is `-(10 + n)` seconds, `n` being
the number of `+1` entries of `leap_seconds` for the month ends that precede the date. -/
theorem ModernUTCMinusTAI_in_range (date : Date) (hfrom : 1972 ≤ date.year)
    (hto : date.year ≤ 2016 ∨ (date.year = 2017 ∧ date.month ≤ 6)) :
    ModernUTCMinusTAI date = .ok (-(10 + (leap_seconds_before date : ℚ)) * Second) := by
  obtain ⟨year, month, day⟩ := date
  simp only at hfrom hto
  obtain ⟨n, rfl⟩ : ∃ n : Nat, year = 1972 + n := ⟨(year - 1972).toNat, by omega⟩
  have hn : n ≤ 45 := by omega
  have htoNat : ((1972 : Int) + n - 1972).toNat = n := by omega
  by_cases hjan : month = 1 ∧ day = 1
  · obtain ⟨rfl, rfl⟩ := hjan
    rw [ModernUTCMinusTAI_january n hn]
    simp [leap_seconds_before, htoNat]
  · rw [ModernUTCMinusTAI]
    simp only [if_neg hjan]
    by_cases hjuly : month > 6
    · have hn' : n < 45 := by omega
      have hcount := leap_seconds_count_succ (n * 2) (by omega)
      have hcount' : (((leap_seconds.take (n * 2 + 1)).count 1 : Nat) : ℚ) =
          (leap_seconds.take (n * 2)).count 1 + (leap_seconds.getD (n * 2) 0 : Int) := by
        exact_mod_cast hcount
      simp only [if_pos hjuly, LeapSecond_june n hn', leap_seconds_before, htoNat,
        hcount', show 2 * n = n * 2 by ring, Second]
      split
      · rename_i f hjanuary
        rw [Calendar_january] at hjanuary
        cases hjanuary
      · rename_i january hjanuary
        rw [Calendar_january] at hjanuary
        cases hjanuary
        rw [ModernUTCMinusTAI_january n hn]
        simp only [Second]
        congr 1
        ring
    · simp only [if_neg hjuly, leap_seconds_before, htoNat, Second]
      split
      · rename_i f hjanuary
        rw [Calendar_january] at hjanuary
        cases hjanuary
      · rename_i january hjanuary
        rw [Calendar_january] at hjanuary
        cases hjanuary
        rw [ModernUTCMinusTAI_january n hn]
        simp only [Second]
        congr 1
        simp

/-- C14.  For every date from 1972-01-01 to 2017-06-30, `ModernUTCMinusTAI` terminates
without check failure and is `-(10 + n)` seconds, `n` being the number of `+1` entries of
`leap_seconds` for the month ends that precede the date; it is `-10 s` on 1972-01-01 and
`-37 s` on 2017-01-01; and `LeapSecond`, when it returns, returns `0` or `+1`. -/
theorem ModernUTCMinusTAI_counts_leap_seconds (date : Date) (hfrom : 1972 ≤ date.year)
    (hto : date.year ≤ 2016 ∨ (date.year = 2017 ∧ date.month ≤ 6)) :
    ModernUTCMinusTAI date = .ok (-(10 + (leap_seconds_before date : ℚ)) * Second) ∧
      ModernUTCMinusTAI { year := 1972, month := 1, day := 1 } = .ok (-10 * Second) ∧
      ModernUTCMinusTAI { year := 2017, month := 1, day := 1 } = .ok (-37 * Second) ∧
      ∀ year month value, LeapSecond year month = .ok value → value = 0 ∨ value = 1 := by
  refine ⟨?_, ?_, ?_, ?_⟩
  · exact ModernUTCMinusTAI_in_range date hfrom hto
  · rw [ModernUTCMinusTAI]
    simp
  · have h := ModernUTCMinusTAI_january 45 (by norm_num)
    have hcount : (leap_seconds.take (45 * 2)).count 1 = 27 := by decide
    rw [hcount] at h
    rw [show ((2017 : Int)) = 1972 + ((45 : Nat) : Int) by norm_num, h]
    norm_num
  · intro year month value h
    obtain ⟨n, hn, rfl, hmonth⟩ := LeapSecond_ok year month value h
    rcases hmonth with rfl | rfl
    · rw [LeapSecond_june n hn] at h
      cases h
      exact leap_seconds_entries (2 * n) (by omega)
    · rw [LeapSecond_december n hn] at h
      cases h
      exact leap_seconds_entries (2 * n + 1) (by omega)

/-- C14 on 2017-06-30, the last date of the range: `-37 s`. -/
theorem ModernUTCMinusTAI_counts_leap_seconds_witness :
    ModernUTCMinusTAI { year := 2017, month := 6, day := 30 } =
      .ok (-(10 + (leap_seconds_before { year := 2017, month := 6, day := 30 } : ℚ)) * Second) :=
  (ModernUTCMinusTAI_counts_leap_seconds { year := 2017, month := 6, day := 30 }
    (by decide) (by decide)).1

/-! ## Stretchy UTC and `TimeScale` -/

/-- C15 fails in the code.  The date-time 1961-07-31T23:59:30.950 is on the day before the
negative leap of 50 ms that precedes 1961-08-01, and it is earlier than 23:59:59.950, so that
it is consistent with the leap; yet `IsValidStretchyUTCIfOnDayOfNegativeLeap` returns `false`
for it, and so does `IsValidStretchyUTC`: the seconds are never looked at, and every time
of the last minute of that day with 950 ms or more is rejected. -/
theorem IsValidStretchyUTCIfOnDayOfNegativeLeap_ignores_seconds :
    (Date.mk 1961 7 31).valid ∧
      (Date.mk 1961 7 31).next_day = Date.mk 1961 8 1 ∧
      (Time.mk 23 59 30 950).before_negative_leap 50 = true ∧
      IsValidStretchyUTCIfOnDayOfNegativeLeap
        ⟨Date.mk 1961 7 31, Time.mk 23 59 30 950⟩ (Date.mk 1961 8 1) 50 = .ok false ∧
      IsValidStretchyUTC ⟨Date.mk 1961 7 31, Time.mk 23 59 30 950⟩ = .ok false :=
  ⟨by decide, by decide, by decide, by rfl, by rfl⟩

/-- The Modified Julian Day number of the day after a date of the calendar is one more
than that of the date. -/
theorem mjd_next_day (date : Date) (h : date.valid) : date.next_day.mjd = date.mjd + 1 := by
  obtain ⟨year, month, day⟩ := date
  obtain ⟨h1, h2, h3, h4⟩ := h
  simp only at h1 h2 h3 h4
  unfold Date.next_day Date.mjd month_length is_gregorian_leap_year at *
  simp only [decide_eq_true_eq, Bool.decide_and, Bool.decide_or, Bool.and_eq_true,
    Bool.or_eq_true, ne_eq, decide_not, Bool.not_eq_true'] at *
  interval_cases month <;> simp at h4 ⊢ <;> split_ifs at h4 ⊢ <;> simp_all <;> omega

/-- C16.  `TimeScale` is `0` at 2000-01-01T12:00:00; it counts 86400 s for every day of the
calendar, whatever the time of day (a leap second included); and at a leap second it is not
injective: on every date `D` of the calendar and for every millisecond `m`, the date-times
`D`T23:59:60.`m` and (`D` + 1 day)T00:00:00.`m` are different and have the same
`TimeScale`. -/
theorem TimeScale_leap_second (date : Date) (hvalid : date.valid) (millisecond : Int) :
    TimeScale ⟨Date.mk 2000 1 1, Time.mk 12 0 0 0⟩ = 0 ∧
      (∀ time : Time, TimeScale ⟨date.next_day, time⟩ = TimeScale ⟨date, time⟩ + Day) ∧
      TimeScale ⟨date, Time.mk 23 59 60 millisecond⟩ =
        TimeScale ⟨date.next_day, Time.mk 0 0 0 millisecond⟩ ∧
      (DateTime.mk date (Time.mk 23 59 60 millisecond)) ≠
        DateTime.mk date.next_day (Time.mk 0 0 0 millisecond) := by
  refine ⟨?_, ?_, ?_, ?_⟩
  · simp [TimeScale]
  · intro time
    simp only [TimeScale, mjd_next_day date hvalid, Second, Day]
    push_cast
    ring
  · simp only [TimeScale, mjd_next_day date hvalid, Second]
    push_cast
    ring
  · intro h
    injection h with hdate htime
    injection htime with hhour
    exact absurd hhour (by decide)

/-- C16 on 2016-12-31, the day of the last leap second of the table. -/
theorem TimeScale_leap_second_witness :
    (Date.mk 2016 12 31).valid ∧
      TimeScale ⟨Date.mk 2016 12 31, Time.mk 23 59 60 250⟩ =
        TimeScale ⟨(Date.mk 2016 12 31).next_day, Time.mk 0 0 0 250⟩ :=
  ⟨by decide, (TimeScale_leap_second (Date.mk 2016 12 31) (by decide) 250).2.2.1⟩

/-! ## Earth orientation parameters -/

/-- C17.  For a C02 entry `low` and a C04 entry `high` whose `ut1()` and `ut1_minus_tai()`
are defined, with `mjd(high.ut1())` different from `low.ut1_mjd`,
`ExperimentalEOPC02ToEOPC04` returns `FromTAI(ut1 - low.ut1_minus_tai)` at every `ut1`
with `mjd(ut1) = low.ut1_mjd`, and `FromTAI(ut1 - high.ut1_minus_tai())` at
`ut1 = high.ut1()`. -/
theorem ExperimentalEOPC02ToEOPC04_continuity (low : ExperimentalEOPC02Entry)
    (high : EOPC04Entry) (high_ut1 high_ut1_minus_tai : ℚ)
    (hut1 : high.ut1 = .ok high_ut1) (hminus : high.ut1_minus_tai = .ok high_ut1_minus_tai)
    (hne : mjd high_ut1 ≠ low.ut1_mjd) :
    (∀ ut1 : ℚ, mjd ut1 = low.ut1_mjd →
        ExperimentalEOPC02ToEOPC04 low high ut1 = .ok (FromTAI (ut1 - low.ut1_minus_tai))) ∧
      ExperimentalEOPC02ToEOPC04 low high high_ut1 =
        .ok (FromTAI (high_ut1 - high_ut1_minus_tai)) := by
  have hne' : mjd high_ut1 - low.ut1_mjd ≠ 0 := sub_ne_zero.mpr hne
  constructor
  · intro ut1 hlow
    simp only [ExperimentalEOPC02ToEOPC04, hut1, hminus, hlow]
    simp
  · simp only [ExperimentalEOPC02ToEOPC04, hut1, hminus]
    congr 2
    field_simp

/-- C17 for the C02 entry at MJD 51544 and the C04 entry of 2000-01-02. -/
theorem ExperimentalEOPC02ToEOPC04_continuity_witness :
    ExperimentalEOPC02ToEOPC04 ⟨51544, -32⟩ ⟨20000102, 1 / 4⟩
        (TimeScale ⟨Date.mk 2000 1 2, Time.mk 0 0 0 0⟩ + 1 / 4) =
      .ok (FromTAI (TimeScale ⟨Date.mk 2000 1 2, Time.mk 0 0 0 0⟩ + 1 / 4 -
        (1 / 4 + -(10 + (leap_seconds_before (Date.mk 2000 1 2) : ℚ)) * Second))) :=
  (ExperimentalEOPC02ToEOPC04_continuity ⟨51544, -32⟩ ⟨20000102, 1 / 4⟩
    (TimeScale ⟨Date.mk 2000 1 2, Time.mk 0 0 0 0⟩ + 1 / 4)
    (1 / 4 + -(10 + (leap_seconds_before (Date.mk 2000 1 2) : ℚ)) * Second)
    (by rfl)
    (by
      have h := ModernUTCMinusTAI_in_range (Date.mk 2000 1 2) (by decide) (by decide)
      have hutc : (EOPC04Entry.mk 20000102 (1 / 4)).utc =
          .ok (DateTime.BeginningOfDay (Date.mk 2000 1 2)) := by rfl
      simp only [EOPC04Entry.ut1_minus_tai, hutc, DateTime.BeginningOfDay, h]
      simp)
    (by
      simp only [TimeScale, mjd, Day, Second]
      have h1 : (Date.mk 2000 1 2).mjd = 51545 := by decide
      have h2 : (Date.mk 2000 1 1).mjd = 51544 := by decide
      rw [h1, h2]
      norm_num)).2

/-! ## The binary search `LookupUT1` -/

/-- The recursion of `LookupUT1` on a range of `n > 0` entries on which the comparison is
defined, with value `below i` at index `i`, and is decreasing (once `false`, it stays
`false`): if the first entry compares `true`, the result is the last index of the range that
does; otherwise the check fails. -/
theorem LookupUT1_generic {Entry : Type} (at_most_ut1 : Entry → Except Fault Bool)
    (table : List Entry) (below : Nat → Bool) (n : Nat) :
    ∀ begin : Nat, 0 < n →
      (∀ i, begin ≤ i → i < begin + n →
        ∃ entry, table[i]? = some entry ∧ at_most_ut1 entry = .ok (below i)) →
      (∀ i j, begin ≤ i → i ≤ j → j < begin + n → below j = true → below i = true) →
      (below begin = true →
        ∃ found, LookupUT1 at_most_ut1 table begin n = .ok found ∧
          begin ≤ found ∧ found < begin + n ∧ below found = true ∧
          ∀ j, found < j → j < begin + n → below j = false) ∧
      (below begin = false → LookupUT1 at_most_ut1 table begin n = .error .check_failed) := by
  induction n using Nat.strong_induction_on with
  | _ n ih =>
    intro begin hn hrange hsorted
    rw [LookupUT1]
    have hpos : ((n : Int) > 0) := by omega
    rw [if_pos hpos]
    by_cases h1 : n = 1
    · subst h1
      obtain ⟨entry, hentry, hat⟩ := hrange begin le_rfl (by omega)
      simp only [Nat.cast_one, if_true, hentry, hat]
      constructor
      · intro hbelow
        refine ⟨begin, ?_, le_rfl, by omega, hbelow, ?_⟩
        · simp [CHECKING, hbelow]
        · intro j h2 h3
          omega
      · intro hbelow
        simp [CHECKING, hbelow]
    · have hne : ¬ ((n : Int) = 1) := by omega
      rw [if_neg hne]
      have hhalf : ((n : Int) / 2).toNat = n / 2 := by omega
      have hrest : (n : Int) - (n : Int) / 2 = ((n - n / 2 : Nat) : Int) := by omega
      have hhalf_int : (n : Int) / 2 = ((n / 2 : Nat) : Int) := by omega
      obtain ⟨entry, hentry, hat⟩ := hrange (begin + n / 2) (by omega) (by omega)
      rw [hhalf, hentry]
      simp only [hat]
      cases hmid : below (begin + n / 2) with
      | true =>
        simp only []
        rw [hrest]
        have hstart : below begin = true :=
          hsorted begin (begin + n / 2) le_rfl (by omega) (by omega) hmid
        obtain ⟨hfound, -⟩ := ih (n - n / 2) (by omega) (begin + n / 2) (by omega)
          (fun i h2 h3 => hrange i (by omega) (by omega))
          (fun i j h2 h3 h4 => hsorted i j (by omega) h3 (by omega))
        obtain ⟨found, hcall, h2, h3, h4, h5⟩ := hfound hmid
        constructor
        · intro _
          exact ⟨found, hcall, by omega, by omega, h4, fun j h6 h7 => h5 j h6 (by omega)⟩
        · intro hbelow
          rw [hstart] at hbelow
          cases hbelow
      | false =>
        simp only []
        rw [hhalf_int]
        obtain ⟨hfound, hfailed⟩ := ih (n / 2) (by omega) begin (by omega)
          (fun i h2 h3 => hrange i h2 (by omega))
          (fun i j h2 h3 h4 => hsorted i j h2 h3 (by omega))
        constructor
        · intro hbelow
          obtain ⟨found, hcall, h2, h3, h4, h5⟩ := hfound hbelow
          refine ⟨found, hcall, h2, by omega, h4, ?_⟩
          intro j h6 h7
          by_cases h8 : j < begin + n / 2
          · exact h5 j h6 h8
          · cases hj : below j with
            | false => rfl
            | true =>
              have := hsorted (begin + n / 2) j (by omega) (by omega) h7 hj
              rw [hmid] at this
              cases this
        · exact hfailed

/-- A range of size zero or less fails the check of `LookupUT1`. -/
theorem LookupUT1_empty {Entry : Type} (at_most_ut1 : Entry → Except Fault Bool)
    (table : List Entry) (begin : Nat) (size : Int) (hsize : size ≤ 0) :
    LookupUT1 at_most_ut1 table begin size = .error .check_failed := by
  rw [LookupUT1, if_neg (by omega)]

/-- The recursion of `LookupUT1` on a range of `size > 0` entries whose UT1 is defined, `key i`
at index `i`, and sorted: the comparison being that of the UT1 of the entry with `ut1`. -/
theorem LookupUT1_sorted {Entry : Type} (at_most_ut1 : Entry → Except Fault Bool)
    (table : List Entry) (key : Nat → ℚ) (ut1 : ℚ) (begin size : Nat) (hsize : 0 < size)
    (hrange : ∀ i, begin ≤ i → i < begin + size →
      ∃ entry, table[i]? = some entry ∧ at_most_ut1 entry = .ok (decide (key i ≤ ut1)))
    (hsorted : ∀ i j, begin ≤ i → i ≤ j → j < begin + size → key i ≤ key j) :
    (key begin ≤ ut1 →
        ∃ found, LookupUT1 at_most_ut1 table begin size = .ok found ∧
          is_last_at_most key ut1 begin size found) ∧
      (ut1 < key begin → LookupUT1 at_most_ut1 table begin size = .error .check_failed) := by
  obtain ⟨hfound, hfailed⟩ := LookupUT1_generic at_most_ut1 table
    (fun i => decide (key i ≤ ut1)) size begin hsize hrange
    (fun i j h1 h2 h3 h4 => by
      simp only [decide_eq_true_eq] at h4 ⊢
      exact le_trans (hsorted i j h1 h2 h3) h4)
  constructor
  · intro hfirst
    obtain ⟨found, hcall, h1, h2, h3, h4⟩ := hfound (by simpa using hfirst)
    refine ⟨found, hcall, h1, h2, by simpa using h3, ?_⟩
    intro j h5 h6
    simpa using h4 j h5 h6
  · intro hfirst
    exact hfailed (by simpa using hfirst)

/-- C13.  Both overloads of `LookupUT1`, on a range `[begin, begin + size[` of the table with
`size > 0` whose entries have a UT1 (`key i` at index `i`) and are sorted by it: the call
returns, and if the UT1 of the first entry is at most `ut1`, the result is the last entry
of the range whose UT1 is at most `ut1`; if it is greater than `ut1`, the check fails.
For `size ≤ 0` the check fails on any table.  In the C02 series the UT1 of an entry is
the Modified Julian Day `ut1_mjd`, compared with `mjd(ut1)`; in the C04 series it is
`ut1()`. -/
theorem LookupUT1_returns_last_at_most (ut1 : ℚ)
    (c02 : List ExperimentalEOPC02Entry) (c04 : List EOPC04Entry) (key02 key04 : Nat → ℚ)
    (begin02 size02 begin04 size04 : Nat) (hsize02 : 0 < size02) (hsize04 : 0 < size04)
    (hrange02 : ∀ i, begin02 ≤ i → i < begin02 + size02 →
      ∃ entry, c02[i]? = some entry ∧ entry.ut1_mjd = key02 i)
    (hrange04 : ∀ i, begin04 ≤ i → i < begin04 + size04 →
      ∃ entry, c04[i]? = some entry ∧ entry.ut1 = .ok (key04 i))
    (hsorted02 : ∀ i j, begin02 ≤ i → i ≤ j → j < begin02 + size02 → key02 i ≤ key02 j)
    (hsorted04 : ∀ i j, begin04 ≤ i → i ≤ j → j < begin04 + size04 → key04 i ≤ key04 j) :
    ((key02 begin02 ≤ mjd ut1 →
        ∃ found, ExperimentalEOPC02Entry.LookupUT1 ut1 c02 begin02 size02 = .ok found ∧
          is_last_at_most key02 (mjd ut1) begin02 size02 found) ∧
      (mjd ut1 < key02 begin02 →
        ExperimentalEOPC02Entry.LookupUT1 ut1 c02 begin02 size02 = .error .check_failed)) ∧
    ((key04 begin04 ≤ ut1 →
        ∃ found, EOPC04Entry.LookupUT1 ut1 c04 begin04 size04 = .ok found ∧
          is_last_at_most key04 ut1 begin04 size04 found) ∧
      (ut1 < key04 begin04 →
        EOPC04Entry.LookupUT1 ut1 c04 begin04 size04 = .error .check_failed)) ∧
    (∀ (table02 : List ExperimentalEOPC02Entry) (table04 : List EOPC04Entry) (begin : Nat)
        (size : Int), size ≤ 0 →
      ExperimentalEOPC02Entry.LookupUT1 ut1 table02 begin size = .error .check_failed ∧
        EOPC04Entry.LookupUT1 ut1 table04 begin size = .error .check_failed) := by
  refine ⟨?_, ?_, ?_⟩
  · refine LookupUT1_sorted _ c02 key02 (mjd ut1) begin02 size02 hsize02 ?_ hsorted02
    intro i h1 h2
    obtain ⟨entry, hentry, hkey⟩ := hrange02 i h1 h2
    exact ⟨entry, hentry, by rw [hkey]⟩
  · refine LookupUT1_sorted _ c04 key04 ut1 begin04 size04 hsize04 ?_ hsorted04
    intro i h1 h2
    obtain ⟨entry, hentry, hkey⟩ := hrange04 i h1 h2
    exact ⟨entry, hentry, by simp only [hkey]⟩
  · intro table02 table04 begin size hsize
    exact ⟨LookupUT1_empty _ table02 begin size hsize,
      LookupUT1_empty _ table04 begin size hsize⟩

/-- The UT1 of the entries of `sample_c04`. -/
theorem sample_c04_ut1 (i : Nat) (hi : i < 3) :
    ∃ entry, sample_c04[i]? = some entry ∧ entry.ut1 = .ok (sample_c04_key i) := by
  have h2 : (Date.mk 2000 1 1).mjd = 51544 := by decide
  have hutc : ∀ (digits : Int) (offset : ℚ) (date : Date), Date.YYYYMMDD digits = .ok date →
      (EOPC04Entry.mk digits offset).ut1 = .ok (TimeScale (DateTime.BeginningOfDay date) + offset) := by
    intro digits offset date h
    simp only [EOPC04Entry.ut1, EOPC04Entry.utc, h]
  interval_cases i
  · refine ⟨⟨20000101, 0⟩, rfl, ?_⟩
    rw [hutc 20000101 0 (Date.mk 2000 1 1) (by rfl)]
    simp [TimeScale, DateTime.BeginningOfDay, sample_c04_key, Second, h2]
  · refine ⟨⟨20000102, 0⟩, rfl, ?_⟩
    have h1 : (Date.mk 2000 1 2).mjd = 51545 := by decide
    rw [hutc 20000102 0 (Date.mk 2000 1 2) (by rfl)]
    simp [TimeScale, DateTime.BeginningOfDay, sample_c04_key, Second, h1, h2]
    norm_num
  · refine ⟨⟨20000103, 0⟩, rfl, ?_⟩
    have h1 : (Date.mk 2000 1 3).mjd = 51546 := by decide
    rw [hutc 20000103 0 (Date.mk 2000 1 3) (by rfl)]
    simp [TimeScale, DateTime.BeginningOfDay, sample_c04_key, Second, h1, h2]
    norm_num

/-- C13 on the three entries of `sample_c02` and of `sample_c04`, at the UT1 of
2000-01-02T00:00:00 (MJD 51545): each search returns. -/
theorem LookupUT1_returns_last_at_most_witness :
    (∃ found, ExperimentalEOPC02Entry.LookupUT1 43200 sample_c02 0 3 = .ok found ∧
        is_last_at_most sample_c02_key (mjd 43200) 0 3 found) ∧
      (∃ found, EOPC04Entry.LookupUT1 43200 sample_c04 0 3 = .ok found ∧
        is_last_at_most sample_c04_key 43200 0 3 found) :=
  have h := LookupUT1_returns_last_at_most 43200 sample_c02 sample_c04 sample_c02_key
    sample_c04_key 0 3 0 3 (by decide) (by decide)
    (fun i _ h2 => by
      have h3 : i < 3 := by omega
      interval_cases i
      · exact ⟨⟨51544, -32⟩, rfl, by norm_num [sample_c02_key]⟩
      · exact ⟨⟨51545, -32⟩, rfl, by norm_num [sample_c02_key]⟩
      · exact ⟨⟨51546, -32⟩, rfl, by norm_num [sample_c02_key]⟩)
    (fun i _ h2 => sample_c04_ut1 i (by omega))
    (fun i j _ h2 _ => by
      simp only [sample_c02_key]
      exact add_le_add_left (by exact_mod_cast h2) _)
    (fun i j _ h2 _ => by
      simp only [sample_c04_key]
      have : (i : ℚ) ≤ j := by exact_mod_cast h2
      linarith)
  ⟨h.1.1 (by norm_num [sample_c02_key, mjd, Day]), h.2.1.1 (by norm_num [sample_c04_key])⟩

/-! ## UTC through a leap second -/

/-- The modern branch of `DateTimeAsUTC`, for a valid date-time from 1972 on that is not an
end of day. -/
theorem DateTimeAsUTC_modern (utc : DateTime) (hend : utc.time.is_end_of_day = false)
    (hyear : 1972 ≤ utc.date.year) (hvalid : IsValidModernUTC utc = .ok true)
    (utc_minus_tai : ℚ) (h : ModernUTCMinusTAI utc.date = .ok utc_minus_tai) :
    DateTimeAsUTC utc = .ok (FromTAI (TimeScale utc - utc_minus_tai)) := by
  rw [DateTimeAsUTC]
  simp [hend, not_lt.mpr hyear, hvalid, CHECKING, h]

/-- What the increase of UTC through a leap second comes down to: the day is of the
calendar, from 1972 on, its leap second is valid, and `ModernUTCMinusTAI` loses one second
from that day to the next. -/
theorem increases_through_leap_second_of (date : Date) (hdate : date.valid)
    (hyear : 1972 ≤ date.year) (hnext : 1972 ≤ date.next_day.year)
    (hleap : LeapSecond date.year date.month = .ok 1) (utc_minus_tai : ℚ)
    (hday : ModernUTCMinusTAI date = .ok utc_minus_tai)
    (hnext_day : ModernUTCMinusTAI date.next_day = .ok (utc_minus_tai - 1 * Second)) :
    increases_through_leap_second date := by
  have hvalid : IsValidModernUTC ⟨date, ⟨23, 59, 60, 0⟩⟩ = .ok true := by
    simp [IsValidModernUTC, Time.is_leap_second, hleap]
  refine ⟨hvalid, _, _, _,
    DateTimeAsUTC_modern ⟨date, ⟨23, 59, 59, 0⟩⟩ (by simp [Time.is_end_of_day]) hyear
      (by simp [IsValidModernUTC, Time.is_leap_second]) utc_minus_tai hday,
    DateTimeAsUTC_modern ⟨date, ⟨23, 59, 60, 0⟩⟩ (by simp [Time.is_end_of_day]) hyear
      hvalid utc_minus_tai hday,
    DateTimeAsUTC_modern ⟨date.next_day, ⟨0, 0, 0, 0⟩⟩ (by simp [Time.is_end_of_day]) hnext
      (by simp [IsValidModernUTC, Time.is_leap_second]) _ hnext_day, ?_, ?_⟩
  · simp only [FromTAI, FromTT, J2000, TimeScale, Second]
    push_cast
    ring
  · simp only [FromTAI, FromTT, J2000, TimeScale, Second, mjd_next_day date hdate]
    push_cast
    ring

/-- C28.  For every year from 1972 to 2016: if the June entry of `leap_seconds` is `+1`, UTC
increases through the leap second at the end of 30 June, and if the December entry is `+1`,
through the one at the end of 31 December: the date-time `D`T23:59:60 is accepted by
`IsValidModernUTC`, and `DateTimeAsUTC` is one second more at `D`T23:59:60 than at
`D`T23:59:59, and one second more at 00:00:00 on the next day than at `D`T23:59:60. -/
theorem utc_increases_through_leap_seconds (n : Nat) (hn : n < 45) :
    (LeapSecond (1972 + n) 6 = .ok 1 →
      increases_through_leap_second { year := 1972 + n, month := 6, day := 30 }) ∧
    (LeapSecond (1972 + n) 12 = .ok 1 →
      increases_through_leap_second { year := 1972 + n, month := 12, day := 31 }) := by
  constructor
  · intro hleap
    have hentry : leap_seconds.getD (2 * n) 0 = 1 := by
      rw [LeapSecond_june n hn] at hleap
      exact Except.ok.inj hleap
    have hnext : (Date.mk (1972 + n) 6 30).next_day = Date.mk (1972 + n) 7 1 := by
      simp [Date.next_day, month_length]
    have hcount := leap_seconds_count_succ (2 * n) (by omega)
    rw [hentry] at hcount
    refine increases_through_leap_second_of _ ?_ ?_ ?_ hleap _
      (ModernUTCMinusTAI_in_range _ (by simp) (Or.inl (by simp; omega))) ?_
    · simp [Date.valid, month_length]
    · simp
    · rw [hnext]
      simp
    · rw [hnext, ModernUTCMinusTAI_in_range _ (by simp) (Or.inl (by simp; omega))]
      have hbefore : leap_seconds_before (Date.mk (1972 + n) 6 30) =
          (leap_seconds.take (2 * n)).count 1 := by
        simp [leap_seconds_before, mul_comm]
      have hafter : leap_seconds_before (Date.mk (1972 + n) 7 1) =
          (leap_seconds.take (2 * n + 1)).count 1 := by
        simp [leap_seconds_before, mul_comm]
      have hcount' : (((leap_seconds.take (2 * n + 1)).count 1 : Nat) : ℚ) =
          (leap_seconds.take (2 * n)).count 1 + 1 := by exact_mod_cast hcount
      rw [hbefore, hafter, hcount']
      congr 1
      ring
  · intro hleap
    have hentry : leap_seconds.getD (2 * n + 1) 0 = 1 := by
      rw [LeapSecond_december n hn] at hleap
      exact Except.ok.inj hleap
    have hnext : (Date.mk (1972 + n) 12 31).next_day = Date.mk (1972 + n + 1) 1 1 := by
      simp [Date.next_day, month_length]
    have hcount := leap_seconds_count_succ (2 * n + 1) (by omega)
    rw [hentry] at hcount
    have hto : (Date.mk (1972 + n + 1) 1 1).year ≤ 2016 ∨
        ((Date.mk (1972 + n + 1) 1 1).year = 2017 ∧ (Date.mk (1972 + n + 1) 1 1).month ≤ 6) := by
      simp only
      omega
    refine increases_through_leap_second_of _ ?_ ?_ ?_ hleap _
      (ModernUTCMinusTAI_in_range _ (by simp) (Or.inl (by simp; omega))) ?_
    · simp [Date.valid, month_length]
    · simp
    · rw [hnext]
      simp only
      omega
    · rw [hnext, ModernUTCMinusTAI_in_range _ (by simp only; omega) hto]
      have hbefore : leap_seconds_before (Date.mk (1972 + n) 12 31) =
          (leap_seconds.take (2 * n + 1)).count 1 := by
        simp [leap_seconds_before, mul_comm]
      have hafter : leap_seconds_before (Date.mk (1972 + n + 1) 1 1) =
          (leap_seconds.take (2 * n + 1 + 1)).count 1 := by
        have : ((1972 : Int) + n + 1 - 1972).toNat = n + 1 := by omega
        simp only [leap_seconds_before, this]
        norm_num
        congr 2
        ring
      have hcount' : (((leap_seconds.take (2 * n + 1 + 1)).count 1 : Nat) : ℚ) =
          (leap_seconds.take (2 * n + 1)).count 1 + 1 := by exact_mod_cast hcount
      rw [hbefore, hafter, hcount']
      congr 1
      ring

/-- C28 at the leap second of 31 December 2016, the last of the table. -/
theorem utc_increases_through_leap_seconds_witness :
    increases_through_leap_second { year := 1972 + (44 : Nat), month := 12, day := 31 } :=
  (utc_increases_through_leap_seconds 44 (by decide)).2 (by rfl)

end astronomy
namespace geometry

/-! ## The encoding of `CoordinatePermutation` -/

/-- C18.  For the six enumerators `XYZ, YZX, ZXY, XZY, ZYX, YXZ` as 32-bit integers: the
two-bit fields at bits 0-1, 2-3 and 4-5 are the images of `x`, `y`, `z` that the name
spells; these images are a permutation of `{0, 1, 2}`; bit 31 is set exactly when that
permutation is odd; the three-bit field at bits 6-8 holds `0, ..., 5`; and the six values
are pairwise distinct. -/
theorem Permutation.coordinate_permutation_encoding :
    Permutation.enumerators.map Permutation.images =
        [[Permutation.x, Permutation.y, Permutation.z],
         [Permutation.y, Permutation.z, Permutation.x],
         [Permutation.z, Permutation.x, Permutation.y],
         [Permutation.x, Permutation.z, Permutation.y],
         [Permutation.z, Permutation.y, Permutation.x],
         [Permutation.y, Permutation.x, Permutation.z]] ∧
      (Permutation.enumerators.all fun value =>
        decide (List.Perm (Permutation.images value) [0, 1, 2])) = true ∧
      (Permutation.enumerators.all fun value =>
        decide (Permutation.bit_field value 31 1 = 1) ==
          Permutation.is_odd_permutation (Permutation.images value)) = true ∧
      Permutation.enumerators.map (fun value => Permutation.bit_field value 31 1) =
        [0, 0, 0, 1, 1, 1] ∧
      Permutation.enumerators.map (fun value => Permutation.bit_field value 6 3) =
        [0, 1, 2, 3, 4, 5] ∧
      Permutation.enumerators.Nodup := by
  decide

/-! ## Orthogonality of `v * B` and `v` -/

/-- C19.  For every vector `v` and bivector `B` with coordinates in a commutative ring,
`InnerProduct(v * B, v) = 0`; it stays `0` when the product and `v` are scaled (as the
test does when it normalizes both), and when `v` and `B` are scaled before the product. -/
theorem vector_times_bivector_orthogonal {R : Type} [CommRing R] (v : Vector R)
    (B : Bivector R) (a b : R) :
    InnerProduct (vector_times_bivector v B) v = 0 ∧
      InnerProduct (scalar_times_vector a (vector_times_bivector v B))
        (scalar_times_vector b v) = 0 ∧
      InnerProduct (vector_times_bivector (scalar_times_vector a v)
        (scalar_times_bivector b B)) (scalar_times_vector a v) = 0 := by
  refine ⟨?_, ?_, ?_⟩ <;>
    simp only [InnerProduct, vector_times_bivector, scalar_times_vector,
      scalar_times_bivector, Dot, Cross, R3Element.scale] <;>
    ring

end geometry


namespace tools

/-! ## The processing of a field -/

/-- The fields of the sample, sorted by name. -/
theorem sample_sorted :
    sort_by_name [sample_in_plugin, sample_in_index, sample_out_plugin, sample_out_value] =
      [sample_in_index, sample_in_plugin, sample_out_plugin, sample_out_value] := by
  simp only [sort_by_name, List.insertionSort, List.orderedInsert, String.le_iff_toList_le]
  decide

/-- The lists generated for the sample: the in-out parameter `plugin` once, by reference,
then the in parameter `index` and the out parameter `value`. -/
theorem sample_method_parameters :
    ProcessMethodExtension new_processor sample_method =
      .ok ({ out_ := [sample_out_plugin, sample_out_value],
             in_out_ := [sample_out_plugin, sample_in_plugin] },
           { cs_interface_parameters :=
               ["  ref IntPtr plugin", "  int index", "  out double value"]
             cxx_interface_parameters :=
               ["Plugin** const plugin", "int const index", "double* const value"]
             cxx_run_arguments := ["&plugin", "index", "&value"] }) := by
  have hfirst : first_pass [] sample_method.nested_type
      { has_in := false, has_out := false, has_return := false, field_descriptors := [],
        out_ := [] } =
      .ok { has_in := true, has_out := true, has_return := true,
            field_descriptors :=
              [sample_in_plugin, sample_in_index, sample_out_plugin, sample_out_value],
            out_ := [sample_out_plugin, sample_out_value] } := by
    rfl
  have hmarked : mark_in_out
      [sample_in_index, sample_in_plugin, sample_out_plugin, sample_out_value] 3 0 [] =
      .ok [sample_out_plugin, sample_in_plugin] := by
    simp [mark_in_out]
    decide
  have hsecond : second_pass [sample_out_plugin, sample_out_value]
      [sample_out_plugin, sample_in_plugin] sample_method.nested_type Parameters.empty =
      .ok { cs_interface_parameters :=
              ["  ref IntPtr plugin", "  int index", "  out double value"]
            cxx_interface_parameters :=
              ["Plugin** const plugin", "int const index", "double* const value"]
            cxx_run_arguments := ["&plugin", "index", "&value"] } := by
    rfl
  simp only [ProcessMethodExtension, new_processor, hfirst, sample_sorted, Bool.and_self,
    if_true, List.length_cons, List.length_nil]
  norm_num
  simp only [hmarked, hsecond]

end tools
end principia
